import Mathlib

/-!
# uncanny: the CAN device-under-test simulator (dut.c)

A shallow embedding of the frame handling of dut.c: the diagnostic
dispatcher udsFrame, the ISO-TP reassembly engine isotpFrame, the
frame-level filter rawFrame and the periodic emitter doPeriodic; and of the
frame-loss test of beacon.c.

Conventions of the embedding.

* A byte (uchar) is a natural number; a frame that comes from the bus has
  all its bytes below 256 (see can_frame.wf).
* The C globals bufflen, buffull, buffie and lastSent form the State that
  every handler receives and returns.  The globals that dut.c never
  assigns after their initialiser (crashdemo, suppressId, the traffic
  settings) form the Config.  The scratch frames rtx and ptx are only
  ever filled and written to the socket at once, so a transmitted frame
  is recorded as an Event instead.
* Effects are recorded, in program order, as a list of Event: a store
  into buffie, a frame written to the socket, an entry into udsFrame (the
  point where dut.c prints the request it was handed) and a call of
  sleep.  Text printed to stdout is otherwise not modelled.
* An array read is List.getD with default 0.  C gives a read past the end
  of an array no meaning; the theorems below carry the hypotheses that
  keep every read they depend on inside the array.
-/

namespace Uncanny

/-! ## Data model -/

/-- The struct can_frame of linux/can.h as dut.c uses it: identifier, data
length code and the eight data bytes. -/
structure can_frame where
  can_id : Nat
  can_dlc : Nat
  data : List Nat
deriving DecidableEq

/-- A frame as the bus delivers it: eight data bytes, each below 256, and
a data length code of at most 8. -/
def can_frame.wf (f : can_frame) : Prop :=
  f.data.length = 8 ∧ f.can_dlc ≤ 8 ∧ ∀ b ∈ f.data, b < 256

/-- Observable effects of the handlers, in program order. -/
inductive Event where
  | store (idx : Nat) (val : Nat)
  | send (f : can_frame)
  | uds (id : Nat) (len : Nat) (req : List Nat)
  | sleep (secs : Nat)
deriving DecidableEq

/-- The configuration globals of dut.c. -/
structure Config where
  crashdemo : Bool
  suppressId : Nat
  trafficEnabled : Bool
  trafficStaticMsg : Bool
  trafficId : Nat
  trafficPeriod : Int
deriving DecidableEq

/-- The initialisers of the configuration globals in dut.c. -/
def Config.default : Config :=
  { crashdemo := true, suppressId := 0x123, trafficEnabled := false,
    trafficStaticMsg := true, trafficId := 0x123, trafficPeriod := 50 }

/-- The mutable globals of dut.c: the long-message buffer with its fill
count and target length, and the time of the last periodic frame. -/
structure State where
  bufflen : Nat
  buffull : Nat
  buffie : List Nat
  lastSent : Int
deriving DecidableEq

/-- The state at program start: bufflen = 0, buffull = 0, buffie holds
4096 zero bytes, lastSent = 0. -/
def State.init : State :=
  { bufflen := 0, buffull := 0, buffie := List.replicate 4096 0, lastSent := 0 }

/-- The buffer is the 4096-byte array of dut.c. -/
def State.wf (s : State) : Prop := s.buffie.length = 4096

/-- Array read d[i]. -/
def rd (d : List Nat) (i : Nat) : Nat := d.getD i 0

/-- The len bytes d[0], ..., d[len-1] found at a pointer. -/
def bytesAt (d : List Nat) (len : Nat) : List Nat :=
  (List.range len).map (rd d)

/-! ## Trace projections -/

/-- The frames written to the socket, in order. -/
def sentOf : List Event → List can_frame
  | [] => []
  | Event.send f :: es => f :: sentOf es
  | _ :: es => sentOf es

/-- The requests handed to udsFrame (identifier, length, bytes), in order. -/
def udsOf : List Event → List (Nat × Nat × List Nat)
  | [] => []
  | Event.uds id len req :: es => (id, len, req) :: udsOf es
  | _ :: es => udsOf es

/-- The durations of the sleep calls, in order. -/
def sleepOf : List Event → List Nat
  | [] => []
  | Event.sleep n :: es => n :: sleepOf es
  | _ :: es => sleepOf es

/-- The indices of the stores into buffie, in order. -/
def storeOf : List Event → List Nat
  | [] => []
  | Event.store i _ :: es => i :: storeOf es
  | _ :: es => storeOf es

/-! ## sendFrame and the comparison macros -/

/-- Embedding of sendFrame: builds rtx with DLC 8 and the eight bytes
(each converted to uchar) and writes it to the socket. -/
def sendFrame (id d0 d1 d2 d3 d4 d5 d6 d7 : Nat) : List Event :=
  [Event.send { can_id := id, can_dlc := 8,
                data := [d0 % 256, d1 % 256, d2 % 256, d3 % 256,
                         d4 % 256, d5 % 256, d6 % 256, d7 % 256] }]

/-- Macro isUDS2. -/
def isUDS2 (l : Nat) (d : List Nat) (d0 d1 : Nat) : Bool :=
  l == 2 && rd d 0 == d0 && rd d 1 == d1

/-- Macro isUDS3. -/
def isUDS3 (l : Nat) (d : List Nat) (d0 d1 d2 : Nat) : Bool :=
  l == 3 && rd d 0 == d0 && rd d 1 == d1 && rd d 2 == d2

/-- Macro isUDS4. -/
def isUDS4 (l : Nat) (d : List Nat) (d0 d1 d2 d3 : Nat) : Bool :=
  l == 4 && rd d 0 == d0 && rd d 1 == d1 && rd d 2 == d2 && rd d 3 == d3

/-- Macro isUDS6. -/
def isUDS6 (l : Nat) (d : List Nat) (d0 d1 d2 d3 d4 d5 : Nat) : Bool :=
  l == 6 && rd d 0 == d0 && rd d 1 == d1 && rd d 2 == d2 && rd d 3 == d3
    && rd d 4 == d4 && rd d 5 == d5

/-- Macro isUDS8. -/
def isUDS8 (l : Nat) (d : List Nat) (d0 d1 d2 d3 d4 d5 d6 d7 : Nat) : Bool :=
  l == 8 && rd d 0 == d0 && rd d 1 == d1 && rd d 2 == d2 && rd d 3 == d3
    && rd d 4 == d4 && rd d 5 == d5 && rd d 6 == d6 && rd d 7 == d7

/-! ## udsFrame -/

/-- Embedding of udsFrame(id, len, data): records the request and walks
the else-if chain of exact matches; the final else branch sends nothing.
The character constants of the VIN reply are written as their codes
(S 0x53, y 0x79, n 0x6E, o 0x6F, p 0x70, s 0x73, I 0x49, G 0x47). -/
def udsFrame (id : Nat) (len : Nat) (data : List Nat) : List Event :=
  let diagId := 0x7e8
  Event.uds id len (bytesAt data len) ::
  (if isUDS2 len data 0x01 0x00 then
    sendFrame diagId 6 0x41 0 25 25 25 25 0
  else if isUDS2 len data 0x09 0x00 then
    sendFrame diagId 6 0x49 0 25 25 25 25 0
  else if isUDS2 len data 0x09 0x02 then
    sendFrame diagId 0x10 13 0x49 2 0x53 0x79 0x6E 0x6F
      ++ sendFrame diagId 0x21 0x70 0x73 0x79 0x73 0x53 0x49 0x47
  else if isUDS2 len data 0x10 0x01 then
    sendFrame diagId 2 0x50 0x01 0 0 0 0 0
  else if isUDS2 len data 0x10 0x02 then
    sendFrame diagId 2 0x50 0x02 0 0 0 0 0
  else if isUDS2 len data 0x10 0x03 then
    sendFrame diagId 2 0x50 0x03 0 0 0 0 0
  else if isUDS2 len data 0x11 0x01 then
    sendFrame diagId 2 0x51 0x01 0 0 0 0 0
  else if isUDS4 len data 0x14 0xff 0xff 0xff then
    sendFrame diagId 1 0x54 0 0 0 0 0 0
  else if isUDS3 len data 0x19 0x01 0x00 then
    sendFrame diagId 3 0x59 0x01 0x00 0 0 0 0
  else if isUDS3 len data 0x22 0xff 0x00 then
    sendFrame diagId 3 0x62 0xff 0x00 0 0 0 0
  else if isUDS6 len data 0x23 0x22 0xff 0xff 0xff 0xff then
    sendFrame diagId 6 0x63 0x22 0xFF 0xFF 0xFF 0xFF 0
  else if isUDS3 len data 0x24 0xff 0x00 then
    sendFrame diagId 4 0x64 0xff 0x00 0x00 0 0 0
  else if isUDS2 len data 0x27 0x01 then
    sendFrame diagId 6 0x67 0x01 0x12 0x34 0x56 0x78 0
  else if isUDS4 len data 0x27 0x02 0x32 0x10 then
    sendFrame diagId 4 0x67 0x02 0x32 0x10 0 0 0
  else if isUDS3 len data 0x28 0x00 0x00 then
    sendFrame diagId 6 0x67 0x02 0x00 0x00 0x00 0x00 0
  else if isUDS2 len data 0x2A 0x01 then
    sendFrame diagId 1 0x6A 0 0 0 0 0 0
  else if isUDS8 len data 0x2C 0x01 0xF2 0x00 0x00 0x00 0x01 0x00 then
    sendFrame diagId 3 0x7F 0x2C 0x12 0 0 0 0
  else if isUDS4 len data 0x2F 0xff 0x00 0x00 then
    sendFrame diagId 4 0x6F 0xFF 0x00 0x00 0 0 0
  else if isUDS4 len data 0x31 0x01 0x01 0x00 then
    sendFrame diagId 4 0x71 0x01 0x01 0x00 0 0 0
  else if isUDS2 len data 0x3e 0x00 then
    sendFrame diagId 2 0x7e 0x00 0 0 0 0 0
  else if isUDS2 len data 0x85 0x01 then
    sendFrame diagId 2 0xc5 0x01 0 0 0 0 0
  else if isUDS3 len data 0x86 0x00 0x00 then
    sendFrame diagId 3 0xc6 0x00 0x00 0 0 0 0
  else if isUDS3 len data 0x87 0x01 0x00 then
    sendFrame diagId 3 0xc7 0x01 0x00 0 0 0 0
  else
    [])

/-! ## isotpFrame -/

/-- The first-frame copy loop, for (i = 2; i < dlc; i++)
buffie[bufflen++] = data[i], with n = dlc - i iterations left. -/
def firstFrameCopy (data : List Nat) : Nat → Nat → State → State × List Event
  | 0, _, s => (s, [])
  | n + 1, i, s =>
    let r := firstFrameCopy data n (i + 1)
      { s with buffie := s.buffie.set s.bufflen (rd data i), bufflen := s.bufflen + 1 }
    (r.1, Event.store s.bufflen (rd data i) :: r.2)

/-- The consecutive-frame copy loop, for (i = 1; i < dlc && bufflen <
buffull; i++) buffie[bufflen++] = data[i], with n = dlc - i iterations
left. -/
def consecutiveCopy (data : List Nat) : Nat → Nat → State → State × List Event
  | 0, _, s => (s, [])
  | n + 1, i, s =>
    if s.bufflen < s.buffull then
      let r := consecutiveCopy data n (i + 1)
        { s with buffie := s.buffie.set s.bufflen (rd data i), bufflen := s.bufflen + 1 }
      (r.1, Event.store s.bufflen (rd data i) :: r.2)
    else
      (s, [])

/-- Embedding of isotpFrame(id, dlc, data) on the globals s. -/
def isotpFrame (id : Nat) (dlc : Nat) (data : List Nat) (s : State) : State × List Event :=
  if rd data 0 < 0x10 then
    (s, udsFrame id (rd data 0) (data.drop 1))
  else if rd data 0 < 0x20 then
    let r := firstFrameCopy data (dlc - 2) 2
      { s with buffull := ((rd data 0 &&& 0xf) <<< 8) + rd data 1, bufflen := 0 }
    (r.1, r.2 ++ sendFrame 0x7d8 0x30 255 1 0 0 0 0 0)
  else if rd data 0 < 0x30 then
    let r := consecutiveCopy data (dlc - 1) 1 s
    if r.1.bufflen = r.1.buffull then
      (r.1, r.2 ++ udsFrame id r.1.bufflen r.1.buffie)
    else
      r
  else if rd data 0 < 0x40 then
    (s, [])
  else
    (s, [])

/-! ## rawFrame -/

/-- The literal frame content that triggers the simulated crash. -/
def isCrashTrigger (f : can_frame) : Bool :=
  f.can_dlc == 8 && rd f.data 0 == 0x03 && rd f.data 1 == 0x10 &&
  rd f.data 2 == 0x06 && rd f.data 3 == 0x00 && rd f.data 4 == 0x00 &&
  rd f.data 5 == 0x00 && rd f.data 6 == 0x00 && rd f.data 7 == 0x00

/-- Embedding of rawFrame(f) under the configuration c on the globals s. -/
def rawFrame (c : Config) (f : can_frame) (s : State) : State × List Event :=
  let id := f.can_id
  let dlc := f.can_dlc
  if id = c.suppressId then (s, [])
  else if dlc < 1 then (s, [])
  else if c.crashdemo && isCrashTrigger f then
    (s, [Event.sleep 5, Event.sleep 5])
  else if id = 0x7d0 ∨ id = 0x71f then
    isotpFrame id dlc f.data s
  else
    (s, [])

/-- Handling a sequence of frames with isotpFrame, one after the other. -/
def isotpFrames : List can_frame → State → State × List Event
  | [], s => (s, [])
  | f :: fs, s =>
    let r := isotpFrame f.can_id f.can_dlc f.data s
    let r2 := isotpFrames fs r.1
    (r2.1, r.2 ++ r2.2)

/-- Handling a sequence of frames with rawFrame, one after the other. -/
def rawFrames (c : Config) : List can_frame → State → State × List Event
  | [], s => (s, [])
  | f :: fs, s =>
    let r := rawFrame c f s
    let r2 := rawFrames c fs r.1
    (r2.1, r.2 ++ r2.2)

/-! ## doPeriodic -/

/-- The test of main in beacon.c that decides whether a due frame is sent,
! loss || ((rand() % 100) > loss), with rnd the value that rand() returns. -/
def beaconSends (loss : Nat) (rnd : Nat) : Bool :=
  loss == 0 || rnd % 100 > loss

/-- The number of values r = rand() % 100 in 0..99 for which a due frame is
dropped under the loss setting. -/
def dropCount (loss : Nat) : Nat :=
  (List.range 100).countP (fun r => !beaconSends loss r)

/-! ## The dispatcher as the specification describes it

The specification describes the dispatcher as an ordered table of
(pattern, response) pairs searched for the first entry whose pattern
equals the request.  The table below lists the 23 patterns and their
response frames in the order of the else-if chain of udsFrame; it is the
second definition that udsFrame is compared with. -/

/-- One frame of a response: addressed to the fixed responder identifier
0x7E8, with DLC 8. -/
def responseFrame (d : List Nat) : can_frame :=
  { can_id := 0x7E8, can_dlc := 8, data := d }

/-- The command pattern table: each pattern with the data bytes of its
response frames, in table order. -/
def patternTable : List (List Nat × List (List Nat)) :=
  [ ([0x01, 0x00], [[6, 0x41, 0, 25, 25, 25, 25, 0]]),
    ([0x09, 0x00], [[6, 0x49, 0, 25, 25, 25, 25, 0]]),
    ([0x09, 0x02], [[0x10, 13, 0x49, 2, 0x53, 0x79, 0x6E, 0x6F],
                    [0x21, 0x70, 0x73, 0x79, 0x73, 0x53, 0x49, 0x47]]),
    ([0x10, 0x01], [[2, 0x50, 0x01, 0, 0, 0, 0, 0]]),
    ([0x10, 0x02], [[2, 0x50, 0x02, 0, 0, 0, 0, 0]]),
    ([0x10, 0x03], [[2, 0x50, 0x03, 0, 0, 0, 0, 0]]),
    ([0x11, 0x01], [[2, 0x51, 0x01, 0, 0, 0, 0, 0]]),
    ([0x14, 0xFF, 0xFF, 0xFF], [[1, 0x54, 0, 0, 0, 0, 0, 0]]),
    ([0x19, 0x01, 0x00], [[3, 0x59, 0x01, 0x00, 0, 0, 0, 0]]),
    ([0x22, 0xFF, 0x00], [[3, 0x62, 0xFF, 0x00, 0, 0, 0, 0]]),
    ([0x23, 0x22, 0xFF, 0xFF, 0xFF, 0xFF], [[6, 0x63, 0x22, 0xFF, 0xFF, 0xFF, 0xFF, 0]]),
    ([0x24, 0xFF, 0x00], [[4, 0x64, 0xFF, 0x00, 0x00, 0, 0, 0]]),
    ([0x27, 0x01], [[6, 0x67, 0x01, 0x12, 0x34, 0x56, 0x78, 0]]),
    ([0x27, 0x02, 0x32, 0x10], [[4, 0x67, 0x02, 0x32, 0x10, 0, 0, 0]]),
    ([0x28, 0x00, 0x00], [[6, 0x67, 0x02, 0x00, 0x00, 0x00, 0x00, 0]]),
    ([0x2A, 0x01], [[1, 0x6A, 0, 0, 0, 0, 0, 0]]),
    ([0x2C, 0x01, 0xF2, 0x00, 0x00, 0x00, 0x01, 0x00], [[3, 0x7F, 0x2C, 0x12, 0, 0, 0, 0]]),
    ([0x2F, 0xFF, 0x00, 0x00], [[4, 0x6F, 0xFF, 0x00, 0x00, 0, 0, 0]]),
    ([0x31, 0x01, 0x01, 0x00], [[4, 0x71, 0x01, 0x01, 0x00, 0, 0, 0]]),
    ([0x3E, 0x00], [[2, 0x7E, 0x00, 0, 0, 0, 0, 0]]),
    ([0x85, 0x01], [[2, 0xC5, 0x01, 0, 0, 0, 0, 0]]),
    ([0x86, 0x00, 0x00], [[3, 0xC6, 0x00, 0x00, 0, 0, 0, 0]]),
    ([0x87, 0x01, 0x00], [[3, 0xC7, 0x01, 0x00, 0, 0, 0, 0]]) ]

/-- First-match lookup in a table: the response frames of the first entry
whose pattern equals the request, and no frame when there is none. -/
def dispatchIn (tbl : List (List Nat × List (List Nat))) (req : List Nat) : List can_frame :=
  match tbl.find? (fun e => e.1 == req) with
  | some e => e.2.map responseFrame
  | none => []

/-- The dispatcher of the specification: first-match lookup in the
pattern table. -/
def tableDispatch (req : List Nat) : List can_frame := dispatchIn patternTable req

/-- The patterns of the table. -/
def patterns : List (List Nat) := patternTable.map (fun e => e.1)

/-- The number of positions at which two byte sequences differ. -/
def diffCount (p q : List Nat) : Nat :=
  (List.zip p q).countP (fun x => x.1 != x.2)

/-! ## Vocabulary of the reassembly claims -/

/-- First byte in 0x10..0x1F: a first frame. -/
def isFirstFrame (f : can_frame) : Prop := 0x10 ≤ rd f.data 0 ∧ rd f.data 0 < 0x20

/-- First byte in 0x20..0x2F: a consecutive frame. -/
def isConsecutiveFrame (f : can_frame) : Prop := 0x20 ≤ rd f.data 0 ∧ rd f.data 0 < 0x30

/-- The total length a first frame declares: the 12-bit big-endian value
made of the low nibble of byte 0 and of byte 1. -/
def declaredLength (f : can_frame) : Nat := (rd f.data 0 % 16) * 256 + rd f.data 1

/-- The bytes of a first frame after byte 1, up to its DLC. -/
def ffBytes (f : can_frame) : List Nat := (f.data.take f.can_dlc).drop 2

/-- The bytes of a consecutive frame after byte 0, up to its DLC. -/
def cfBytes (f : can_frame) : List Nat := (f.data.take f.can_dlc).drop 1

instance (f : can_frame) : Decidable (isFirstFrame f) := by
  unfold isFirstFrame; infer_instance

instance (f : can_frame) : Decidable (isConsecutiveFrame f) := by
  unfold isConsecutiveFrame; infer_instance

instance (f : can_frame) : Decidable f.wf := by
  unfold can_frame.wf; infer_instance

instance (s : State) : Decidable s.wf := by
  unfold State.wf; infer_instance

/-- The bytes after byte 0 of each frame of a sequence of consecutive
frames, concatenated in arrival order. -/
def cfPayload : List can_frame → List Nat
  | [] => []
  | f :: fs => cfBytes f ++ cfPayload fs

/-- Two states hold the same reassembly session: the same fill count, the
same target length and the same bytes below the fill count, in buffers of the
same size. -/
def sameSession (a b : State) : Prop :=
  a.bufflen = b.bufflen ∧ a.buffull = b.buffull ∧ a.buffie.length = b.buffie.length ∧
  ∀ k, k < a.bufflen → rd a.buffie k = rd b.buffie k

/-- The number of bytes a consecutive frame appends to the session: the
DLC - 1 bytes it carries, cut to the remaining capacity buffull - bufflen. -/
def cfAppendCount (s : State) (f : can_frame) : Nat :=
  min (f.can_dlc - 1) (s.buffull - s.bufflen)

/-! ## Shared lemmas -/

theorem bytesAt_length (d : List Nat) (len : Nat) : (bytesAt d len).length = len := by
  simp [bytesAt]

theorem dispatchIn_cons (p : List Nat) (r : List (List Nat)) (t : List (List Nat × List (List Nat)))
    (req : List Nat) :
    dispatchIn ((p, r) :: t) req = if (p == req) = true then r.map responseFrame else dispatchIn t req := by
  unfold dispatchIn
  rw [List.find?_cons]
  cases h : (p == req) <;> simp

theorem chain_step (c : Bool) (a b : List Event) (p : List Nat) (r : List (List Nat))
    (t : List (List Nat × List (List Nat))) (req : List Nat)
    (hc : c = (p == req)) (ha : a = (r.map responseFrame).map Event.send)
    (hb : b = (dispatchIn t req).map Event.send) :
    (if c = true then a else b) = (dispatchIn ((p, r) :: t) req).map Event.send := by
  rw [dispatchIn_cons, hc, ha, hb]
  cases (p == req) <;> simp

theorem isUDS2_eq (l : Nat) (d : List Nat) (d0 d1 : Nat) :
    isUDS2 l d d0 d1 = ([d0, d1] == bytesAt d l) := by
  by_cases h : l = 2
  · subst h
    rw [Bool.eq_iff_iff]
    simp only [isUDS2, bytesAt, List.range, List.range.loop, List.map, beq_self_eq_true, Bool.true_and, Bool.and_eq_true, beq_iff_eq, List.cons.injEq, and_true]
    constructor <;> intro h <;> simp_all
  · have h2 : (l == 2) = false := by simpa using h
    have h3 : ([d0, d1] == bytesAt d l) = false := by
      have : [d0, d1] ≠ bytesAt d l := by
        intro e; apply h; have := congrArg List.length e; simp [bytesAt_length] at this; omega
      simpa using this
    simp only [isUDS2, h2, h3, Bool.false_and]

theorem isUDS3_eq (l : Nat) (d : List Nat) (d0 d1 d2 : Nat) :
    isUDS3 l d d0 d1 d2 = ([d0, d1, d2] == bytesAt d l) := by
  by_cases h : l = 3
  · subst h
    rw [Bool.eq_iff_iff]
    simp only [isUDS3, bytesAt, List.range, List.range.loop, List.map, beq_self_eq_true, Bool.true_and, Bool.and_eq_true, beq_iff_eq, List.cons.injEq, and_true]
    constructor <;> intro h <;> simp_all
  · have h2 : (l == 3) = false := by simpa using h
    have h3 : ([d0, d1, d2] == bytesAt d l) = false := by
      have : [d0, d1, d2] ≠ bytesAt d l := by
        intro e; apply h; have := congrArg List.length e; simp [bytesAt_length] at this; omega
      simpa using this
    simp only [isUDS3, h2, h3, Bool.false_and]

theorem isUDS4_eq (l : Nat) (d : List Nat) (d0 d1 d2 d3 : Nat) :
    isUDS4 l d d0 d1 d2 d3 = ([d0, d1, d2, d3] == bytesAt d l) := by
  by_cases h : l = 4
  · subst h
    rw [Bool.eq_iff_iff]
    simp only [isUDS4, bytesAt, List.range, List.range.loop, List.map, beq_self_eq_true, Bool.true_and, Bool.and_eq_true, beq_iff_eq, List.cons.injEq, and_true]
    constructor <;> intro h <;> simp_all
  · have h2 : (l == 4) = false := by simpa using h
    have h3 : ([d0, d1, d2, d3] == bytesAt d l) = false := by
      have : [d0, d1, d2, d3] ≠ bytesAt d l := by
        intro e; apply h; have := congrArg List.length e; simp [bytesAt_length] at this; omega
      simpa using this
    simp only [isUDS4, h2, h3, Bool.false_and]

theorem isUDS6_eq (l : Nat) (d : List Nat) (d0 d1 d2 d3 d4 d5 : Nat) :
    isUDS6 l d d0 d1 d2 d3 d4 d5 = ([d0, d1, d2, d3, d4, d5] == bytesAt d l) := by
  by_cases h : l = 6
  · subst h
    rw [Bool.eq_iff_iff]
    simp only [isUDS6, bytesAt, List.range, List.range.loop, List.map, beq_self_eq_true, Bool.true_and, Bool.and_eq_true, beq_iff_eq, List.cons.injEq, and_true]
    constructor <;> intro h <;> simp_all
  · have h2 : (l == 6) = false := by simpa using h
    have h3 : ([d0, d1, d2, d3, d4, d5] == bytesAt d l) = false := by
      have : [d0, d1, d2, d3, d4, d5] ≠ bytesAt d l := by
        intro e; apply h; have := congrArg List.length e; simp [bytesAt_length] at this; omega
      simpa using this
    simp only [isUDS6, h2, h3, Bool.false_and]

theorem isUDS8_eq (l : Nat) (d : List Nat) (d0 d1 d2 d3 d4 d5 d6 d7 : Nat) :
    isUDS8 l d d0 d1 d2 d3 d4 d5 d6 d7 = ([d0, d1, d2, d3, d4, d5, d6, d7] == bytesAt d l) := by
  by_cases h : l = 8
  · subst h
    rw [Bool.eq_iff_iff]
    simp only [isUDS8, bytesAt, List.range, List.range.loop, List.map, beq_self_eq_true, Bool.true_and, Bool.and_eq_true, beq_iff_eq, List.cons.injEq, and_true]
    constructor <;> intro h <;> simp_all
  · have h2 : (l == 8) = false := by simpa using h
    have h3 : ([d0, d1, d2, d3, d4, d5, d6, d7] == bytesAt d l) = false := by
      have : [d0, d1, d2, d3, d4, d5, d6, d7] ≠ bytesAt d l := by
        intro e; apply h; have := congrArg List.length e; simp [bytesAt_length] at this; omega
      simpa using this
    simp only [isUDS8, h2, h3, Bool.false_and]

theorem udsFrame_eq_table (id len : Nat) (data : List Nat) :
    udsFrame id len data =
      Event.uds id len (bytesAt data len) ::
        (dispatchIn patternTable (bytesAt data len)).map Event.send := by
  unfold udsFrame patternTable
  dsimp only
  congr 1
  refine chain_step _ _ _ _ _ _ _ (isUDS2_eq _ _ _ _) rfl ?_
  refine chain_step _ _ _ _ _ _ _ (isUDS2_eq _ _ _ _) rfl ?_
  refine chain_step _ _ _ _ _ _ _ (isUDS2_eq _ _ _ _) rfl ?_
  refine chain_step _ _ _ _ _ _ _ (isUDS2_eq _ _ _ _) rfl ?_
  refine chain_step _ _ _ _ _ _ _ (isUDS2_eq _ _ _ _) rfl ?_
  refine chain_step _ _ _ _ _ _ _ (isUDS2_eq _ _ _ _) rfl ?_
  refine chain_step _ _ _ _ _ _ _ (isUDS2_eq _ _ _ _) rfl ?_
  refine chain_step _ _ _ _ _ _ _ (isUDS4_eq _ _ _ _ _ _) rfl ?_
  refine chain_step _ _ _ _ _ _ _ (isUDS3_eq _ _ _ _ _) rfl ?_
  refine chain_step _ _ _ _ _ _ _ (isUDS3_eq _ _ _ _ _) rfl ?_
  refine chain_step _ _ _ _ _ _ _ (isUDS6_eq _ _ _ _ _ _ _ _) rfl ?_
  refine chain_step _ _ _ _ _ _ _ (isUDS3_eq _ _ _ _ _) rfl ?_
  refine chain_step _ _ _ _ _ _ _ (isUDS2_eq _ _ _ _) rfl ?_
  refine chain_step _ _ _ _ _ _ _ (isUDS4_eq _ _ _ _ _ _) rfl ?_
  refine chain_step _ _ _ _ _ _ _ (isUDS3_eq _ _ _ _ _) rfl ?_
  refine chain_step _ _ _ _ _ _ _ (isUDS2_eq _ _ _ _) rfl ?_
  refine chain_step _ _ _ _ _ _ _ (isUDS8_eq _ _ _ _ _ _ _ _ _ _) rfl ?_
  refine chain_step _ _ _ _ _ _ _ (isUDS4_eq _ _ _ _ _ _) rfl ?_
  refine chain_step _ _ _ _ _ _ _ (isUDS4_eq _ _ _ _ _ _) rfl ?_
  refine chain_step _ _ _ _ _ _ _ (isUDS2_eq _ _ _ _) rfl ?_
  refine chain_step _ _ _ _ _ _ _ (isUDS2_eq _ _ _ _) rfl ?_
  refine chain_step _ _ _ _ _ _ _ (isUDS3_eq _ _ _ _ _) rfl ?_
  refine chain_step _ _ _ _ _ _ _ (isUDS3_eq _ _ _ _ _) rfl ?_
  rfl


theorem bytesAt_eq_take (d : List Nat) (len : Nat) (h : len ≤ d.length) :
    bytesAt d len = d.take len := by
  apply List.ext_getElem
  · simp [bytesAt, h]
  · intro i h1 h2
    simp [bytesAt] at h1
    have : i < d.length := by omega
    simp [bytesAt, rd, List.getD_eq_getElem, this]

theorem bytesAt_self (q : List Nat) : bytesAt q q.length = q := by
  rw [bytesAt_eq_take q q.length (le_refl _)]; simp

theorem sentOf_append (a b : List Event) : sentOf (a ++ b) = sentOf a ++ sentOf b := by
  induction a with
  | nil => rfl
  | cons e es ih => cases e <;> simp [sentOf, ih]

theorem udsOf_append (a b : List Event) : udsOf (a ++ b) = udsOf a ++ udsOf b := by
  induction a with
  | nil => rfl
  | cons e es ih => cases e <;> simp [udsOf, ih]

theorem sleepOf_append (a b : List Event) : sleepOf (a ++ b) = sleepOf a ++ sleepOf b := by
  induction a with
  | nil => rfl
  | cons e es ih => cases e <;> simp [sleepOf, ih]

theorem storeOf_append (a b : List Event) : storeOf (a ++ b) = storeOf a ++ storeOf b := by
  induction a with
  | nil => rfl
  | cons e es ih => cases e <;> simp [storeOf, ih]

theorem sentOf_map_send (l : List can_frame) : sentOf (l.map Event.send) = l := by
  induction l with
  | nil => rfl
  | cons a t ih => simp [sentOf, ih]

theorem udsOf_map_send (l : List can_frame) : udsOf (l.map Event.send) = [] := by
  induction l with
  | nil => rfl
  | cons a t ih => simp [udsOf, ih]

theorem sleepOf_map_send (l : List can_frame) : sleepOf (l.map Event.send) = [] := by
  induction l with
  | nil => rfl
  | cons a t ih => simp [sleepOf, ih]

theorem storeOf_map_send (l : List can_frame) : storeOf (l.map Event.send) = [] := by
  induction l with
  | nil => rfl
  | cons a t ih => simp [storeOf, ih]

theorem sentOf_udsFrame (id len : Nat) (data : List Nat) :
    sentOf (udsFrame id len data) = tableDispatch (bytesAt data len) := by
  rw [udsFrame_eq_table]; simp [sentOf, sentOf_map_send, tableDispatch]

theorem udsOf_udsFrame (id len : Nat) (data : List Nat) :
    udsOf (udsFrame id len data) = [(id, len, bytesAt data len)] := by
  rw [udsFrame_eq_table]; simp [udsOf, udsOf_map_send]

theorem sleepOf_udsFrame (id len : Nat) (data : List Nat) :
    sleepOf (udsFrame id len data) = [] := by
  rw [udsFrame_eq_table]; simp [sleepOf, sleepOf_map_send]

theorem storeOf_udsFrame (id len : Nat) (data : List Nat) :
    storeOf (udsFrame id len data) = [] := by
  rw [udsFrame_eq_table]; simp [storeOf, storeOf_map_send]

theorem dispatchIn_mem (tbl : List (List Nat × List (List Nat))) (req : List Nat) (f : can_frame)
    (h : f ∈ dispatchIn tbl req) : f.can_id = 0x7E8 ∧ f.can_dlc = 8 := by
  unfold dispatchIn at h
  split at h
  · simp only [List.mem_map] at h
    obtain ⟨d, _, rfl⟩ := h
    exact ⟨rfl, rfl⟩
  · simp at h

theorem dispatchIn_none (tbl : List (List Nat × List (List Nat))) (req : List Nat)
    (h : ∀ e ∈ tbl, e.1 ≠ req) : dispatchIn tbl req = [] := by
  unfold dispatchIn
  have : tbl.find? (fun e => e.1 == req) = none := by
    rw [List.find?_eq_none]
    intro e he
    simpa using h e he
  rw [this]

theorem tableDispatch_pattern_ne_nil : ∀ e ∈ patternTable, tableDispatch e.1 ≠ [] := by
  decide

/-! ## The dispatcher -/

/-- C3: dispatch equals exact-match table lookup.  For every request
identifier and every request byte sequence q, the frames udsFrame writes are
the response frames of the first entry of the pattern table whose pattern
equals q (same length, same bytes), each with identifier 0x7E8 and DLC 8, in
the order listed; the table has 23 entries, each with one response frame
except 09 02, which has two; no frame is written when q equals none of the
patterns; and the frames do not depend on the request identifier.  The second
conjunct is the same statement for a length and a pointer into a longer
array. -/
theorem udsFrame_is_table_lookup :
    (∀ (id : Nat) (q : List Nat), sentOf (udsFrame id q.length q) = tableDispatch q) ∧
    (∀ (id len : Nat) (data : List Nat),
      sentOf (udsFrame id len data) = tableDispatch (bytesAt data len)) ∧
    (∀ (q : List Nat), tableDispatch q =
      match patternTable.find? (fun e => e.1 == q) with
      | some e => e.2.map (fun d => ({ can_id := 0x7E8, can_dlc := 8, data := d } : can_frame))
      | none => []) ∧
    (∀ (id : Nat) (q : List Nat), ∀ f ∈ sentOf (udsFrame id q.length q),
      f.can_id = 0x7E8 ∧ f.can_dlc = 8) ∧
    patternTable.length = 23 ∧
    (∀ e ∈ patternTable, e.2.length = if e.1 = [0x09, 0x02] then 2 else 1) ∧
    (∀ (id : Nat) (q : List Nat), (∀ e ∈ patternTable, e.1 ≠ q) →
      sentOf (udsFrame id q.length q) = []) ∧
    (∀ (id1 id2 : Nat) (q : List Nat),
      sentOf (udsFrame id1 q.length q) = sentOf (udsFrame id2 q.length q)) := by
  refine ⟨?_, ?_, ?_, ?_, ?_, ?_, ?_, ?_⟩
  · intro id q; rw [sentOf_udsFrame, bytesAt_self]
  · intro id len data; exact sentOf_udsFrame id len data
  · intro q; rfl
  · intro id q f hf
    rw [sentOf_udsFrame] at hf
    exact dispatchIn_mem _ _ _ hf
  · rfl
  · decide
  · intro id q h
    rw [sentOf_udsFrame, bytesAt_self]
    exact dispatchIn_none _ _ h
  · intro id1 id2 q
    rw [sentOf_udsFrame, sentOf_udsFrame]

/-- C4, as stated, fails: the table holds patterns that differ in a single
byte.  The request 10 02 has the length of the pattern 10 01 and differs
from it in the final byte only, and udsFrame answers it. -/
theorem one_byte_different_counterexample :
    [0x10, 0x01] ∈ patterns ∧
    ([0x10, 0x02] : List Nat).length = ([0x10, 0x01] : List Nat).length ∧
    diffCount [0x10, 0x01] [0x10, 0x02] = 1 ∧
    sentOf (udsFrame 0x7D0 2 [0x10, 0x02]) = [responseFrame [2, 0x50, 0x02, 0, 0, 0, 0, 0]] ∧
    sentOf (udsFrame 0x7D0 2 [0x10, 0x02]) ≠ [] := by
  decide

theorem diffCount_self (p : List Nat) : diffCount p p = 0 := by
  unfold diffCount
  induction p with
  | nil => rfl
  | cons a t ih => simpa [List.zip_cons_cons, List.countP_cons] using ih

theorem tableDispatch_injective :
    ∀ e1 ∈ patternTable, ∀ e2 ∈ patternTable,
      tableDispatch e1.1 = tableDispatch e2.1 → e1.1 = e2.1 := by
  decide

/-- C4, amended: for every pattern p of the table and every byte sequence q
of the same length that differs from p in exactly one position, udsFrame
writes no frame exactly when q is not itself a pattern of the table (when it
is, the response of that entry is written); in either case the frames written
for q are not the response to p. -/
theorem one_byte_different_no_response (id : Nat) (p q : List Nat)
    (hp : p ∈ patterns) (hlen : q.length = p.length) (hdiff : diffCount p q = 1) :
    (sentOf (udsFrame id q.length q) = [] ↔ q ∉ patterns) ∧
    (q ∉ patterns → sentOf (udsFrame id q.length q) = []) ∧
    sentOf (udsFrame id q.length q) ≠ sentOf (udsFrame id p.length p) := by
  have key : sentOf (udsFrame id q.length q) = [] ↔ q ∉ patterns := by
    rw [sentOf_udsFrame, bytesAt_self]
    constructor
    · intro h hq
      simp only [patterns, List.mem_map] at hq
      obtain ⟨e, he, rfl⟩ := hq
      exact tableDispatch_pattern_ne_nil e he h
    · intro hq
      apply dispatchIn_none
      intro e he heq
      apply hq
      simp only [patterns, List.mem_map]
      exact ⟨e, he, heq⟩
  refine ⟨key, key.2, ?_⟩
  have hne : q ≠ p := by
    intro e
    rw [e, diffCount_self] at hdiff
    exact absurd hdiff (by decide)
  simp only [patterns, List.mem_map] at hp
  obtain ⟨ep, hep, rfl⟩ := hp
  by_cases hq : q ∈ patterns
  · simp only [patterns, List.mem_map] at hq
    obtain ⟨eq, heq, rfl⟩ := hq
    rw [sentOf_udsFrame, sentOf_udsFrame, bytesAt_self, bytesAt_self]
    intro h
    exact hne (tableDispatch_injective eq heq ep hep h)
  · rw [key.2 hq, sentOf_udsFrame, bytesAt_self]
    exact fun h => tableDispatch_pattern_ne_nil ep hep h.symm

theorem one_byte_different_no_response_witness :
    ([0x3E, 0x00] : List Nat) ∈ patterns ∧
    ([0x3E, 0x01] : List Nat).length = ([0x3E, 0x00] : List Nat).length ∧
    diffCount [0x3E, 0x00] [0x3E, 0x01] = 1 ∧
    ([0x3E, 0x01] : List Nat) ∉ patterns ∧
    sentOf (udsFrame 0x7D0 2 [0x3E, 0x01]) = [] :=
  ⟨by decide, by decide, by decide, by decide,
   (one_byte_different_no_response 0x7D0 [0x3E, 0x00] [0x3E, 0x01]
      (by decide) (by decide) (by decide)).2.1 (by decide)⟩

/-! ## Single frames -/

/-- C2: single-frame delivery.  For a frame of eight data bytes with DLC at
most 8 whose first byte L is below 0x10 and at most DLC - 1, isotpFrame
leaves the globals (fill count, target length, buffer) unchanged, enters
udsFrame exactly once, with length L and the L bytes data[1..L], and stores
nothing into the buffer. -/
theorem single_frame_delivery (id dlc : Nat) (data : List Nat) (s : State)
    (hlen : data.length = 8) (hdlc : dlc ≤ 8)
    (h0 : rd data 0 < 0x10) (hL : rd data 0 ≤ dlc - 1) :
    (isotpFrame id dlc data s).1 = s ∧
    udsOf (isotpFrame id dlc data s).2 =
      [(id, rd data 0, (data.drop 1).take (rd data 0))] ∧
    storeOf (isotpFrame id dlc data s).2 = [] := by
  have hL7 : rd data 0 ≤ (data.drop 1).length := by
    rw [List.length_drop, hlen]; omega
  unfold isotpFrame
  rw [if_pos h0]
  refine ⟨rfl, ?_, ?_⟩
  · show udsOf (udsFrame id (rd data 0) (data.drop 1)) = _
    rw [udsOf_udsFrame, bytesAt_eq_take _ _ hL7]
  · show storeOf (udsFrame id (rd data 0) (data.drop 1)) = _
    rw [storeOf_udsFrame]

theorem single_frame_delivery_witness :
    ([0x02, 0x3E, 0x00, 0, 0, 0, 0, 0] : List Nat).length = 8 ∧ 3 ≤ 8 ∧
    (isotpFrame 0x7D0 3 [0x02, 0x3E, 0x00, 0, 0, 0, 0, 0] State.init).1 = State.init ∧
    udsOf (isotpFrame 0x7D0 3 [0x02, 0x3E, 0x00, 0, 0, 0, 0, 0] State.init).2 =
      [(0x7D0, 2, [0x3E, 0x00])] :=
  ⟨by decide, by decide,
   (single_frame_delivery 0x7D0 3 [0x02, 0x3E, 0x00, 0, 0, 0, 0, 0] State.init
      (by decide) (by decide) (by decide) (by decide)).1,
   (single_frame_delivery 0x7D0 3 [0x02, 0x3E, 0x00, 0, 0, 0, 0, 0] State.init
      (by decide) (by decide) (by decide) (by decide)).2.1⟩

/-! ## Frame-level filtering -/

/-- C8: suppression.  For every configuration, every state and every frame
whose identifier equals the suppression identifier, whatever its DLC and
content, rawFrame returns the state unchanged with an empty trace: no frame
is written, nothing is stored, udsFrame is not entered (neither directly nor
through isotpFrame) and sleep is not called. -/
theorem suppressed_frame_ignored (c : Config) (f : can_frame) (s : State)
    (h : f.can_id = c.suppressId) :
    rawFrame c f s = (s, []) := by
  unfold rawFrame
  simp [h]

theorem suppressed_frame_ignored_witness :
    (0x123 : Nat) = Config.default.suppressId ∧
    rawFrame Config.default
      { can_id := 0x123, can_dlc := 8, data := [0x03, 0x10, 0x06, 0, 0, 0, 0, 0] }
      State.init = (State.init, []) :=
  ⟨by decide,
   suppressed_frame_ignored Config.default
     { can_id := 0x123, can_dlc := 8, data := [0x03, 0x10, 0x06, 0, 0, 0, 0, 0] }
     State.init (by decide)⟩

/-- C9, as stated for the trigger frame whatever its identifier, fails: with
the crash flag set (the initialiser of dut.c), the trigger frame (DLC 8, data
03 10 06 00 00 00 00 00) on the suppression identifier 0x123 is dropped before
the crash test, so rawFrame calls sleep not once and the 10 seconds do not
pass. -/
theorem crash_trigger_counterexample :
    Config.default.crashdemo = true ∧
    sleepOf (rawFrame Config.default
      { can_id := 0x123, can_dlc := 8, data := [0x03, 0x10, 0x06, 0, 0, 0, 0, 0] }
      State.init).2 = [] ∧
    (sleepOf (rawFrame Config.default
      { can_id := 0x123, can_dlc := 8, data := [0x03, 0x10, 0x06, 0, 0, 0, 0, 0] }
      State.init).2).sum ≠ 10 := by
  decide

/-- C9, amended: crash simulation.  With the crash flag set, a frame on any
identifier other than the suppression identifier that has DLC 8 and the data
03 10 06 00 00 00 00 00 makes rawFrame call sleep(5) twice (10 seconds in all)
and nothing else: no frame is written, udsFrame and the reassembly loop are
not entered, the state is unchanged, and the frames handled afterwards leave
the same state and the same trace as they would without the trigger frame. -/
theorem crash_trigger_suspends (c : Config) (f : can_frame) (s : State)
    (hflag : c.crashdemo = true) (hid : f.can_id ≠ c.suppressId)
    (hdlc : f.can_dlc = 8) (hdata : f.data = [0x03, 0x10, 0x06, 0, 0, 0, 0, 0]) :
    rawFrame c f s = (s, [Event.sleep 5, Event.sleep 5]) ∧
    (sleepOf (rawFrame c f s).2).sum = 10 ∧
    sentOf (rawFrame c f s).2 = [] ∧
    udsOf (rawFrame c f s).2 = [] ∧
    storeOf (rawFrame c f s).2 = [] ∧
    ∀ fs : List can_frame,
      (rawFrames c (f :: fs) s).1 = (rawFrames c fs s).1 ∧
      (rawFrames c (f :: fs) s).2 = [Event.sleep 5, Event.sleep 5] ++ (rawFrames c fs s).2 := by
  have h1 : rawFrame c f s = (s, [Event.sleep 5, Event.sleep 5]) := by
    unfold rawFrame
    have ht : isCrashTrigger f = true := by
      unfold isCrashTrigger
      rw [hdlc, hdata]
      decide
    simp [hid, hdlc, hflag, ht]
  refine ⟨h1, ?_, ?_, ?_, ?_, ?_⟩
  · rw [h1]; rfl
  · rw [h1]; rfl
  · rw [h1]; rfl
  · rw [h1]; rfl
  · intro fs
    simp [rawFrames, h1]

theorem crash_trigger_suspends_witness :
    Config.default.crashdemo = true ∧ (0x7D0 : Nat) ≠ Config.default.suppressId ∧
    rawFrame Config.default
      { can_id := 0x7D0, can_dlc := 8, data := [0x03, 0x10, 0x06, 0, 0, 0, 0, 0] }
      State.init = (State.init, [Event.sleep 5, Event.sleep 5]) :=
  ⟨by decide, by decide,
   (crash_trigger_suspends Config.default
     { can_id := 0x7D0, can_dlc := 8, data := [0x03, 0x10, 0x06, 0, 0, 0, 0, 0] }
     State.init (by decide) (by decide) rfl rfl).1⟩

/-- C10, as stated, fails: the frame written for the Tester Present request
does not carry the data 7E 00 00 00 00 00 00 00. -/
theorem tester_present_counterexample :
    sentOf (rawFrame Config.default
      { can_id := 0x7D0, can_dlc := 3, data := [0x02, 0x3E, 0x00, 0, 0, 0, 0, 0] }
      State.init).2
      ≠ [{ can_id := 0x7E8, can_dlc := 8, data := [0x7E, 0x00, 0, 0, 0, 0, 0, 0] }] := by
  decide

/-- C10, amended: under any configuration whose suppression identifier is
not the frame identifier, and from any state, the frame with identifier
0x7D0 or 0x71F, DLC 3 and data 02 3E 00 00 00 00 00 00 is handled as a single
frame: udsFrame is entered once with length 2 and the bytes 3E 00, and
exactly one frame is written, with identifier 0x7E8, DLC 8 and the data
02 7E 00 00 00 00 00 00 (the length byte 02 before the reply 7E 00); the
state is unchanged. -/
theorem tester_present_scenario (c : Config) (s : State) (id : Nat)
    (hrec : id = 0x7D0 ∨ id = 0x71F) (hid : id ≠ c.suppressId) :
    rawFrame c { can_id := id, can_dlc := 3, data := [0x02, 0x3E, 0x00, 0, 0, 0, 0, 0] } s
      = (s, [Event.uds id 2 [0x3E, 0x00],
             Event.send { can_id := 0x7E8, can_dlc := 8,
                          data := [0x02, 0x7E, 0x00, 0, 0, 0, 0, 0] }]) := by
  have hu : udsFrame id 2 [0x3E, 0x00, 0, 0, 0, 0, 0]
      = [Event.uds id 2 [0x3E, 0x00],
         Event.send { can_id := 0x7E8, can_dlc := 8,
                      data := [0x02, 0x7E, 0x00, 0, 0, 0, 0, 0] }] := by
    rw [udsFrame_eq_table]
    rfl
  have hi : isotpFrame id 3 [0x02, 0x3E, 0x00, 0, 0, 0, 0, 0] s
      = (s, udsFrame id 2 [0x3E, 0x00, 0, 0, 0, 0, 0]) := by
    unfold isotpFrame
    rfl
  unfold rawFrame
  have hc : isCrashTrigger
      { can_id := id, can_dlc := 3, data := [0x02, 0x3E, 0x00, 0, 0, 0, 0, 0] } = false := by
    rfl
  simp only [hid, if_false, hc, Bool.and_false, hi, hu]
  simp [hrec]

theorem tester_present_scenario_witness :
    ((0x7D0 : Nat) = 0x7D0 ∨ (0x7D0 : Nat) = 0x71F) ∧ (0x7D0 : Nat) ≠ Config.default.suppressId ∧
    rawFrame Config.default
      { can_id := 0x7D0, can_dlc := 3, data := [0x02, 0x3E, 0x00, 0, 0, 0, 0, 0] } State.init
      = (State.init, [Event.uds 0x7D0 2 [0x3E, 0x00],
             Event.send { can_id := 0x7E8, can_dlc := 8,
                          data := [0x02, 0x7E, 0x00, 0, 0, 0, 0, 0] }]) :=
  ⟨by decide, by decide,
   tester_present_scenario Config.default State.init 0x7D0 (by decide) (by decide)⟩

/-! ## The copy loops of isotpFrame -/

theorem rd_set (l : List Nat) (i k v : Nat) :
    rd (l.set i v) k = if i = k ∧ i < l.length then v else rd l k := by
  unfold rd
  by_cases hik : i = k
  · subst hik
    by_cases hi : i < l.length
    · simp [List.getD_eq_getElem?_getD, hi]
    · have : l.length ≤ i := by omega
      simp [List.getD_eq_getElem?_getD, hi, List.set_eq_of_length_le this]
  · simp [List.getD_eq_getElem?_getD, hik, List.getElem?_set_ne hik]

theorem rd_lt_256 (d : List Nat) (h : ∀ b ∈ d, b < 256) (i : Nat) : rd d i < 256 := by
  unfold rd
  by_cases hi : i < d.length
  · rw [List.getD_eq_getElem _ _ hi]
    exact h _ (List.getElem_mem hi)
  · rw [List.getD_eq_default _ _ (by omega)]
    decide

/-- The consecutive-frame loop stores min n (buffull - bufflen) bytes, taken
from data[i] onwards, at the fill count onwards, and nothing else. -/
theorem consecutiveCopy_spec (data : List Nat) : ∀ (n i : Nat) (s : State),
    (consecutiveCopy data n i s).1.bufflen = s.bufflen + min n (s.buffull - s.bufflen) ∧
    (consecutiveCopy data n i s).1.buffull = s.buffull ∧
    (consecutiveCopy data n i s).1.lastSent = s.lastSent ∧
    (consecutiveCopy data n i s).1.buffie.length = s.buffie.length ∧
    (∀ k, k < s.bufflen → rd (consecutiveCopy data n i s).1.buffie k = rd s.buffie k) ∧
    (∀ j, j < min n (s.buffull - s.bufflen) → s.bufflen + j < s.buffie.length →
      rd (consecutiveCopy data n i s).1.buffie (s.bufflen + j) = rd data (i + j)) ∧
    (consecutiveCopy data n i s).2 =
      (List.range (min n (s.buffull - s.bufflen))).map
        (fun j => Event.store (s.bufflen + j) (rd data (i + j))) := by
  intro n
  induction n with
  | zero =>
    intro i s
    simp [consecutiveCopy]
  | succ n ih =>
    intro i s
    by_cases h : s.bufflen < s.buffull
    · have ih1 := ih (i + 1)
        { s with buffie := s.buffie.set s.bufflen (rd data i), bufflen := s.bufflen + 1 }
      simp only [List.length_set] at ih1
      obtain ⟨h1, h2, h3, h4, h5, h6, h7⟩ := ih1
      have hm : min (n + 1) (s.buffull - s.bufflen)
          = min n (s.buffull - (s.bufflen + 1)) + 1 := by omega
      simp only [consecutiveCopy, if_pos h]
      refine ⟨?_, h2, h3, h4, ?_, ?_, ?_⟩
      · rw [h1, hm]; omega
      · intro k hk
        rw [h5 k (by omega), rd_set]
        have : ¬ (s.bufflen = k ∧ s.bufflen < s.buffie.length) := by omega
        rw [if_neg this]
      · intro j hj hlen
        cases j with
        | zero =>
          have h8 := h5 s.bufflen (by omega)
          rw [rd_set] at h8
          simp only [Nat.add_zero] at hlen ⊢
          rw [h8]
          simp [hlen]
        | succ j =>
          have := h6 j (by omega) (by omega)
          rw [show s.bufflen + (j + 1) = s.bufflen + 1 + j by omega,
              show i + (j + 1) = i + 1 + j by omega]
          exact this
      · rw [h7, hm, List.range_succ_eq_map]
        simp only [List.map_cons, List.map_map, Nat.add_zero]
        congr 1
        apply List.map_congr_left
        intro j _
        simp only [Function.comp, Nat.succ_eq_add_one]
        rw [show s.bufflen + (j + 1) = s.bufflen + 1 + j by omega,
            show i + (j + 1) = i + 1 + j by omega]
    · have hm : min (n + 1) (s.buffull - s.bufflen) = 0 := by omega
      simp [consecutiveCopy, h, hm]

/-- The first-frame loop stores n bytes, taken from data[i] onwards, at the
fill count onwards, whatever the target length. -/
theorem firstFrameCopy_spec (data : List Nat) : ∀ (n i : Nat) (s : State),
    (firstFrameCopy data n i s).1.bufflen = s.bufflen + n ∧
    (firstFrameCopy data n i s).1.buffull = s.buffull ∧
    (firstFrameCopy data n i s).1.lastSent = s.lastSent ∧
    (firstFrameCopy data n i s).1.buffie.length = s.buffie.length ∧
    (∀ k, k < s.bufflen → rd (firstFrameCopy data n i s).1.buffie k = rd s.buffie k) ∧
    (∀ j, j < n → s.bufflen + j < s.buffie.length →
      rd (firstFrameCopy data n i s).1.buffie (s.bufflen + j) = rd data (i + j)) ∧
    (firstFrameCopy data n i s).2 =
      (List.range n).map (fun j => Event.store (s.bufflen + j) (rd data (i + j))) := by
  intro n
  induction n with
  | zero =>
    intro i s
    simp [firstFrameCopy]
  | succ n ih =>
    intro i s
    have ih1 := ih (i + 1)
      { s with buffie := s.buffie.set s.bufflen (rd data i), bufflen := s.bufflen + 1 }
    simp only [List.length_set] at ih1
    obtain ⟨h1, h2, h3, h4, h5, h6, h7⟩ := ih1
    simp only [firstFrameCopy]
    refine ⟨?_, h2, h3, h4, ?_, ?_, ?_⟩
    · rw [h1]; omega
    · intro k hk
      rw [h5 k (by omega), rd_set]
      have : ¬ (s.bufflen = k ∧ s.bufflen < s.buffie.length) := by omega
      rw [if_neg this]
    · intro j hj hlen
      cases j with
      | zero =>
        have h8 := h5 s.bufflen (by omega)
        rw [rd_set] at h8
        simp only [Nat.add_zero] at hlen ⊢
        rw [h8]
        simp [hlen]
      | succ j =>
        have := h6 j (by omega) (by omega)
        rw [show s.bufflen + (j + 1) = s.bufflen + 1 + j by omega,
            show i + (j + 1) = i + 1 + j by omega]
        exact this
    · rw [h7, List.range_succ_eq_map]
      simp only [List.map_cons, List.map_map, Nat.add_zero]
      congr 1
      apply List.map_congr_left
      intro j _
      simp only [Function.comp, Nat.succ_eq_add_one]
      rw [show s.bufflen + (j + 1) = s.bufflen + 1 + j by omega,
          show i + (j + 1) = i + 1 + j by omega]

theorem bytesAt_congr (a b : List Nat) (n : Nat) (h : ∀ k, k < n → rd a k = rd b k) :
    bytesAt a n = bytesAt b n := by
  unfold bytesAt
  apply List.map_congr_left
  intro k hk
  exact h k (List.mem_range.mp hk)

theorem bytesAt_add (l : List Nat) (a m : Nat) :
    bytesAt l (a + m) = bytesAt l a ++ (List.range m).map (fun j => rd l (a + j)) := by
  unfold bytesAt
  rw [List.range_add, List.map_append, List.map_map]
  rfl

theorem rd_drop (l : List Nat) (i j : Nat) : rd (l.drop i) j = rd l (i + j) := by
  simp [rd, List.getD_eq_getElem?_getD, List.getElem?_drop]

theorem range_map_rd (data : List Nat) (i m : Nat) (h : i + m ≤ data.length) :
    (List.range m).map (fun j => rd data (i + j)) = (data.drop i).take m := by
  rw [← bytesAt_eq_take (data.drop i) m (by rw [List.length_drop]; omega)]
  unfold bytesAt
  apply List.map_congr_left
  intro j _
  rw [rd_drop]

theorem cfBytes_eq (f : can_frame) (h : f.wf) :
    cfBytes f = (List.range (f.can_dlc - 1)).map (fun j => rd f.data (1 + j)) := by
  obtain ⟨h8, hd, _⟩ := h
  rw [range_map_rd f.data 1 (f.can_dlc - 1) (by omega)]
  unfold cfBytes
  rw [List.drop_take]

theorem ffBytes_eq (f : can_frame) (h : f.wf) :
    ffBytes f = (List.range (f.can_dlc - 2)).map (fun j => rd f.data (2 + j)) := by
  obtain ⟨h8, hd, _⟩ := h
  rw [range_map_rd f.data 2 (f.can_dlc - 2) (by omega)]
  unfold ffBytes
  rw [List.drop_take]

theorem cfBytes_length (f : can_frame) (h : f.wf) : (cfBytes f).length = f.can_dlc - 1 := by
  rw [cfBytes_eq f h]; simp

theorem ffBytes_length (f : can_frame) (h : f.wf) : (ffBytes f).length = f.can_dlc - 2 := by
  rw [ffBytes_eq f h]; simp

theorem declared_eq (b0 b1 : Nat) : ((b0 &&& 0xf) <<< 8) + b1 = (b0 % 16) * 256 + b1 := by
  rw [Nat.shiftLeft_eq]
  have : b0 &&& 0xf = b0 % 16 := Nat.and_pow_two_sub_one_eq_mod b0 4
  rw [this]

theorem declaredLength_le (f : can_frame) (h : f.wf) : declaredLength f ≤ 4095 := by
  unfold declaredLength
  have h1 := rd_lt_256 f.data h.2.2 1
  have h0 : rd f.data 0 % 16 < 16 := Nat.mod_lt _ (by decide)
  omega

/-- What isotpFrame does with a first frame. -/
theorem isotpFrame_first (id dlc : Nat) (data : List Nat) (s : State)
    (h : 0x10 ≤ rd data 0 ∧ rd data 0 < 0x20) :
    (isotpFrame id dlc data s).1.bufflen = dlc - 2 ∧
    (isotpFrame id dlc data s).1.buffull = (rd data 0 % 16) * 256 + rd data 1 ∧
    (isotpFrame id dlc data s).1.lastSent = s.lastSent ∧
    (isotpFrame id dlc data s).1.buffie.length = s.buffie.length ∧
    (dlc - 2 ≤ s.buffie.length →
      bytesAt (isotpFrame id dlc data s).1.buffie (dlc - 2)
        = (List.range (dlc - 2)).map (fun j => rd data (2 + j))) ∧
    (isotpFrame id dlc data s).2 =
      (List.range (dlc - 2)).map (fun j => Event.store j (rd data (2 + j)))
        ++ [Event.send { can_id := 0x7D8, can_dlc := 8,
                         data := [0x30, 0xFF, 0x01, 0, 0, 0, 0, 0] }] := by
  have hn : ¬ rd data 0 < 0x10 := by omega
  obtain ⟨h1, h2, h3, h4, _, h6, h7⟩ := firstFrameCopy_spec data (dlc - 2) 2
    { s with buffull := ((rd data 0 &&& 0xf) <<< 8) + rd data 1, bufflen := 0 }
  simp only [Nat.zero_add] at h1 h6 h7
  unfold isotpFrame
  rw [if_neg hn, if_pos h.2]
  refine ⟨h1, ?_, h3, h4, ?_, ?_⟩
  · show (firstFrameCopy _ _ _ _).1.buffull = _
    rw [h2, declared_eq]
  · intro hl
    show bytesAt (firstFrameCopy _ _ _ _).1.buffie _ = _
    unfold bytesAt
    apply List.map_congr_left
    intro j hj
    have hj2 := List.mem_range.mp hj
    exact h6 j hj2 (by show j < s.buffie.length; omega)
  · show (firstFrameCopy _ _ _ _).2 ++ _ = _
    rw [h7]
    rfl

/-- What isotpFrame does with a consecutive frame. -/
theorem isotpFrame_consecutive (id dlc : Nat) (data : List Nat) (s : State)
    (h : 0x20 ≤ rd data 0 ∧ rd data 0 < 0x30) :
    isotpFrame id dlc data s =
      if (consecutiveCopy data (dlc - 1) 1 s).1.bufflen
          = (consecutiveCopy data (dlc - 1) 1 s).1.buffull then
        ((consecutiveCopy data (dlc - 1) 1 s).1,
         (consecutiveCopy data (dlc - 1) 1 s).2 ++
           udsFrame id (consecutiveCopy data (dlc - 1) 1 s).1.bufflen
             (consecutiveCopy data (dlc - 1) 1 s).1.buffie)
      else consecutiveCopy data (dlc - 1) 1 s := by
  have hn : ¬ rd data 0 < 0x10 := by omega
  have hn2 : ¬ rd data 0 < 0x20 := by omega
  unfold isotpFrame
  rw [if_neg hn, if_neg hn2, if_pos h.2]

theorem udsOf_stores (l : List Nat) (f : Nat → Event) (hf : ∀ j, ∃ i v, f j = Event.store i v) :
    udsOf (l.map f) = [] ∧ sentOf (l.map f) = [] ∧ sleepOf (l.map f) = [] := by
  induction l with
  | nil => exact ⟨rfl, rfl, rfl⟩
  | cons a t ih =>
    obtain ⟨i, v, hiv⟩ := hf a
    simp only [List.map_cons, hiv, udsOf, sentOf, sleepOf]
    exact ih

/-- A consecutive frame whose bytes all fit below the target length. -/
theorem isotpFrame_consecutive_fits (f : can_frame) (s : State)
    (hwf : f.wf) (hcf : isConsecutiveFrame f)
    (hfit : s.bufflen + (f.can_dlc - 1) ≤ s.buffull) (hcap : s.buffull ≤ s.buffie.length) :
    (isotpFrame f.can_id f.can_dlc f.data s).1.bufflen = s.bufflen + (f.can_dlc - 1) ∧
    (isotpFrame f.can_id f.can_dlc f.data s).1.buffull = s.buffull ∧
    (isotpFrame f.can_id f.can_dlc f.data s).1.buffie.length = s.buffie.length ∧
    bytesAt (isotpFrame f.can_id f.can_dlc f.data s).1.buffie (s.bufflen + (f.can_dlc - 1))
      = bytesAt s.buffie s.bufflen ++ cfBytes f ∧
    udsOf (isotpFrame f.can_id f.can_dlc f.data s).2 =
      (if s.bufflen + (f.can_dlc - 1) = s.buffull then
        [(f.can_id, s.buffull,
          bytesAt (isotpFrame f.can_id f.can_dlc f.data s).1.buffie s.buffull)]
       else []) := by
  obtain ⟨h1, h2, _, h4, h5, h6, h7⟩ := consecutiveCopy_spec f.data (f.can_dlc - 1) 1 s
  have hm : min (f.can_dlc - 1) (s.buffull - s.bufflen) = f.can_dlc - 1 := by omega
  rw [hm] at h1 h6 h7
  have hst : udsOf (consecutiveCopy f.data (f.can_dlc - 1) 1 s).2 = [] := by
    rw [h7]
    exact (udsOf_stores _ _ (fun j => ⟨_, _, rfl⟩)).1
  have hbytes : bytesAt (consecutiveCopy f.data (f.can_dlc - 1) 1 s).1.buffie
      (s.bufflen + (f.can_dlc - 1)) = bytesAt s.buffie s.bufflen ++ cfBytes f := by
    rw [bytesAt_add, cfBytes_eq f hwf]
    congr 1
    · exact bytesAt_congr _ _ _ h5
    · apply List.map_congr_left
      intro j hj
      have hj2 := List.mem_range.mp hj
      exact h6 j hj2 (by omega)
  rw [isotpFrame_consecutive _ _ _ _ hcf]
  by_cases hdone : s.bufflen + (f.can_dlc - 1) = s.buffull
  · have hc : (consecutiveCopy f.data (f.can_dlc - 1) 1 s).1.bufflen
        = (consecutiveCopy f.data (f.can_dlc - 1) 1 s).1.buffull := by
      rw [h1, h2, hdone]
    rw [if_pos hc, if_pos hdone]
    refine ⟨h1, h2, h4, hbytes, ?_⟩
    show udsOf (_ ++ _) = _
    rw [udsOf_append, hst, udsOf_udsFrame, h1, hdone]
    rfl
  · have hc : ¬ (consecutiveCopy f.data (f.can_dlc - 1) 1 s).1.bufflen
        = (consecutiveCopy f.data (f.can_dlc - 1) 1 s).1.buffull := by
      rw [h1, h2]; exact hdone
    rw [if_neg hc, if_neg hdone]
    exact ⟨h1, h2, h4, hbytes, hst⟩

theorem cfPayload_append (a b : List can_frame) :
    cfPayload (a ++ b) = cfPayload a ++ cfPayload b := by
  induction a with
  | nil => rfl
  | cons f fs ih => simp [cfPayload, ih]

theorem isotpFrames_append (a b : List can_frame) (s : State) :
    isotpFrames (a ++ b) s =
      ((isotpFrames b (isotpFrames a s).1).1,
       (isotpFrames a s).2 ++ (isotpFrames b (isotpFrames a s).1).2) := by
  induction a generalizing s with
  | nil => simp [isotpFrames]
  | cons f fs ih => simp [isotpFrames, ih]

/-- Consecutive frames that leave the message incomplete are accumulated
without any delivery. -/
theorem isotpFrames_accumulate : ∀ (cfs : List can_frame) (s : State),
    (∀ f ∈ cfs, f.wf ∧ isConsecutiveFrame f) →
    s.bufflen + (cfPayload cfs).length < s.buffull → s.buffull ≤ s.buffie.length →
    (isotpFrames cfs s).1.bufflen = s.bufflen + (cfPayload cfs).length ∧
    (isotpFrames cfs s).1.buffull = s.buffull ∧
    (isotpFrames cfs s).1.buffie.length = s.buffie.length ∧
    bytesAt (isotpFrames cfs s).1.buffie (s.bufflen + (cfPayload cfs).length)
      = bytesAt s.buffie s.bufflen ++ cfPayload cfs ∧
    udsOf (isotpFrames cfs s).2 = [] := by
  intro cfs
  induction cfs with
  | nil =>
    intro s _ _ _
    simp [isotpFrames, cfPayload, udsOf]
  | cons f fs ih =>
    intro s hall hlt hcap
    have hf := hall f (List.mem_cons_self f fs)
    have hlen := cfBytes_length f hf.1
    simp only [cfPayload, List.length_append, hlen] at hlt ⊢
    obtain ⟨h1, h2, h3, h4, h5⟩ :=
      isotpFrame_consecutive_fits f s hf.1 hf.2 (by omega) hcap
    have hnot : ¬ s.bufflen + (f.can_dlc - 1) = s.buffull := by omega
    rw [if_neg hnot] at h5
    obtain ⟨g1, g2, g3, g4, g5⟩ := ih (isotpFrame f.can_id f.can_dlc f.data s).1
      (fun g hg => hall g (List.mem_cons_of_mem f hg))
      (by rw [h1, h2]; omega) (by rw [h2, h3]; exact hcap)
    simp only [isotpFrames]
    refine ⟨?_, ?_, ?_, ?_, ?_⟩
    · rw [g1, h1]; omega
    · rw [g2, h2]
    · rw [g3, h3]
    · rw [h1] at g4
      rw [← Nat.add_assoc, g4, h4, List.append_assoc]
    · rw [udsOf_append, h5, g5]; rfl

/-! ## Reassembly -/

/-- C1: multi-frame reassembly.  From any state (with the 4096-byte buffer),
take a first frame (first byte 0x10..0x1F, DLC 2..8) declaring the length T
and N >= 1 consecutive frames (first byte 0x20..0x2F, whatever its low
nibble, DLC 2..8), written here as cfs followed by lastf, such that the bytes
of the first frame after byte 1 and the bytes of each consecutive frame after
byte 0 number T in all.  Then isotpFrame enters udsFrame for none of the
frames before the last, and for the last consecutive frame it enters udsFrame
exactly once, with length T and with the first frame's trailing bytes followed
by each consecutive frame's trailing bytes in arrival order; over the whole
sequence that is the only delivery. -/
theorem multi_frame_reassembly (s : State) (ff : can_frame) (cfs : List can_frame)
    (lastf : can_frame)
    (hs : s.wf) (hff : ff.wf) (hfirst : isFirstFrame ff) (hffdlc : 2 ≤ ff.can_dlc)
    (hcfs : ∀ f ∈ cfs ++ [lastf], f.wf ∧ isConsecutiveFrame f ∧ 2 ≤ f.can_dlc)
    (htotal : (ffBytes ff ++ cfPayload (cfs ++ [lastf])).length = declaredLength ff) :
    udsOf (isotpFrames (ff :: cfs) s).2 = [] ∧
    udsOf (isotpFrame lastf.can_id lastf.can_dlc lastf.data (isotpFrames (ff :: cfs) s).1).2
      = [(lastf.can_id, declaredLength ff, ffBytes ff ++ cfPayload (cfs ++ [lastf]))] ∧
    udsOf (isotpFrames (ff :: (cfs ++ [lastf])) s).2
      = [(lastf.can_id, declaredLength ff, ffBytes ff ++ cfPayload (cfs ++ [lastf]))] := by
  have hlast := hcfs lastf (by simp)
  have hlastlen := cfBytes_length lastf hlast.1
  have hfflen := ffBytes_length ff hff
  have hT := declaredLength_le ff hff
  rw [List.length_append, cfPayload_append, List.length_append, hfflen] at htotal
  simp only [cfPayload, List.append_nil, hlastlen] at htotal
  -- the first frame
  obtain ⟨a1, a2, _, a4, a5, a6⟩ := isotpFrame_first ff.can_id ff.can_dlc ff.data s hfirst
  have hcap : ff.can_dlc - 2 ≤ s.buffie.length := by
    have := hff.2.1
    rw [hs]; omega
  have a5 := a5 hcap
  rw [← ffBytes_eq ff hff] at a5
  have a7 : udsOf (isotpFrame ff.can_id ff.can_dlc ff.data s).2 = [] := by
    rw [a6, udsOf_append, (udsOf_stores _ _ (fun j => ⟨_, _, rfl⟩)).1]
    rfl
  -- the consecutive frames before the last
  obtain ⟨b1, b2, b3, b4, b5⟩ := isotpFrames_accumulate cfs
    (isotpFrame ff.can_id ff.can_dlc ff.data s).1
    (fun f hf => ⟨(hcfs f (by simp [hf])).1, (hcfs f (by simp [hf])).2.1⟩)
    (by rw [a1, a2]; unfold declaredLength at htotal; omega)
    (by rw [a2, a4, hs]; unfold declaredLength at hT; omega)
  rw [a1, a5] at b4
  have hmid : udsOf (isotpFrames (ff :: cfs) s).2 = [] := by
    simp only [isotpFrames]
    rw [udsOf_append, a7, b5]; rfl
  -- the last consecutive frame
  have hstate : (isotpFrames (ff :: cfs) s).1
      = (isotpFrames cfs (isotpFrame ff.can_id ff.can_dlc ff.data s).1).1 := rfl
  obtain ⟨c1, c2, c3, c4, c5⟩ := isotpFrame_consecutive_fits lastf
    (isotpFrames cfs (isotpFrame ff.can_id ff.can_dlc ff.data s).1).1 hlast.1 hlast.2.1
    (by rw [b1, b2, a1, a2]; unfold declaredLength at htotal; omega)
    (by rw [b2, b3, a2, a4, hs]; unfold declaredLength at hT; omega)
  have hdone : (isotpFrames cfs (isotpFrame ff.can_id ff.can_dlc ff.data s).1).1.bufflen
      + (lastf.can_dlc - 1)
      = (isotpFrames cfs (isotpFrame ff.can_id ff.can_dlc ff.data s).1).1.buffull := by
    rw [b1, b2, a1, a2]; unfold declaredLength at htotal; omega
  rw [if_pos hdone] at c5
  rw [← hdone, c4, b1, a1, b4] at c5
  have hsum : ff.can_dlc - 2 + (cfPayload cfs).length + (lastf.can_dlc - 1)
      = declaredLength ff := by omega
  rw [hsum] at c5
  have hfin : udsOf (isotpFrame lastf.can_id lastf.can_dlc lastf.data
      (isotpFrames (ff :: cfs) s).1).2
      = [(lastf.can_id, declaredLength ff, ffBytes ff ++ cfPayload (cfs ++ [lastf]))] := by
    rw [hstate, c5, cfPayload_append]
    simp only [cfPayload, List.append_nil, List.append_assoc]
  refine ⟨hmid, hfin, ?_⟩
  rw [show ff :: (cfs ++ [lastf]) = (ff :: cfs) ++ [lastf] by simp, isotpFrames_append]
  show udsOf (_ ++ _) = _
  rw [udsOf_append, hmid]
  simp only [isotpFrames, List.nil_append, List.append_nil]
  exact hfin

theorem init_wf : State.init.wf := by
  unfold State.wf State.init
  exact List.length_replicate 4096 0

theorem multi_frame_reassembly_witness :
    State.init.wf ∧
    udsOf (isotpFrames
      [{ can_id := 0x7D0, can_dlc := 6, data := [0x10, 0x0D, 0x49, 0x02, 0x53, 0x79, 0, 0] },
       { can_id := 0x7D0, can_dlc := 7, data := [0x2F, 0x6E, 0x6F, 0x70, 0x73, 0x79, 0x73, 0] },
       { can_id := 0x7D0, can_dlc := 4, data := [0x20, 0x53, 0x49, 0x47, 0, 0, 0, 0] }]
      State.init).2
      = [(0x7D0, 13, [0x49, 0x02, 0x53, 0x79, 0x6E, 0x6F, 0x70, 0x73, 0x79, 0x73,
                      0x53, 0x49, 0x47])] :=
  ⟨init_wf,
   (multi_frame_reassembly State.init
      { can_id := 0x7D0, can_dlc := 6, data := [0x10, 0x0D, 0x49, 0x02, 0x53, 0x79, 0, 0] }
      [{ can_id := 0x7D0, can_dlc := 7, data := [0x2F, 0x6E, 0x6F, 0x70, 0x73, 0x79, 0x73, 0] }]
      { can_id := 0x7D0, can_dlc := 4, data := [0x20, 0x53, 0x49, 0x47, 0, 0, 0, 0] }
      init_wf (by decide) (by decide) (by decide) (by decide)
      (by decide)).2.2⟩

/-! ## Session hyperproperty and the defects of the session bookkeeping -/

theorem rd_of_length_le (l : List Nat) (k : Nat) (h : l.length ≤ k) : rd l k = 0 := by
  unfold rd
  exact List.getD_eq_default _ _ h

theorem sameSession_refl (a : State) : sameSession a a :=
  ⟨rfl, rfl, rfl, fun _ _ => rfl⟩

/-- The consecutive-frame copy loop acts alike on two states that hold the
same session. -/
theorem consecutiveCopy_rel (data : List Nat) (n i : Nat) (a b : State)
    (h : sameSession a b) :
    (consecutiveCopy data n i a).2 = (consecutiveCopy data n i b).2 ∧
    sameSession (consecutiveCopy data n i a).1 (consecutiveCopy data n i b).1 := by
  obtain ⟨r1, r2, r3, r4⟩ := h
  obtain ⟨a1, a2, _, a4, a5, a6, a7⟩ := consecutiveCopy_spec data n i a
  obtain ⟨b1, b2, _, b4, b5, b6, b7⟩ := consecutiveCopy_spec data n i b
  simp only [← r1, ← r2] at b1 b2 b5 b6 b7
  refine ⟨by rw [a7, b7], by rw [a1, b1], by rw [a2, b2], by rw [a4, b4, r3], ?_⟩
  intro k hk
  rw [a1] at hk
  by_cases hk1 : k < a.bufflen
  · rw [a5 k hk1, b5 k hk1, r4 k hk1]
  · by_cases hk2 : k < a.buffie.length
    · have e : k = a.bufflen + (k - a.bufflen) := by omega
      rw [e, a6 (k - a.bufflen) (by omega) (by omega),
        b6 (k - a.bufflen) (by omega) (by omega)]
    · rw [rd_of_length_le _ k (by omega), rd_of_length_le _ k (by omega)]

/-- The first-frame copy loop acts alike on two states that hold the same
session. -/
theorem firstFrameCopy_rel (data : List Nat) (n i : Nat) (a b : State)
    (h : sameSession a b) :
    (firstFrameCopy data n i a).2 = (firstFrameCopy data n i b).2 ∧
    sameSession (firstFrameCopy data n i a).1 (firstFrameCopy data n i b).1 := by
  obtain ⟨r1, r2, r3, r4⟩ := h
  obtain ⟨a1, a2, _, a4, a5, a6, a7⟩ := firstFrameCopy_spec data n i a
  obtain ⟨b1, b2, _, b4, b5, b6, b7⟩ := firstFrameCopy_spec data n i b
  simp only [← r1, ← r2] at b1 b2 b5 b6 b7
  refine ⟨by rw [a7, b7], by rw [a1, b1], by rw [a2, b2], by rw [a4, b4, r3], ?_⟩
  intro k hk
  rw [a1] at hk
  by_cases hk1 : k < a.bufflen
  · rw [a5 k hk1, b5 k hk1, r4 k hk1]
  · by_cases hk2 : k < a.buffie.length
    · have e : k = a.bufflen + (k - a.bufflen) := by omega
      rw [e, a6 (k - a.bufflen) (by omega) (by omega),
        b6 (k - a.bufflen) (by omega) (by omega)]
    · rw [rd_of_length_le _ k (by omega), rd_of_length_le _ k (by omega)]

theorem udsFrame_congr (id len : Nat) (d1 d2 : List Nat)
    (h : bytesAt d1 len = bytesAt d2 len) : udsFrame id len d1 = udsFrame id len d2 := by
  rw [udsFrame_eq_table, udsFrame_eq_table, h]

/-- A first frame brings any two states with buffers of the same size to the
same session, with the same trace. -/
theorem isotpFrame_first_rel (id dlc : Nat) (data : List Nat) (a b : State)
    (hlen : a.buffie.length = b.buffie.length)
    (h : 0x10 ≤ rd data 0 ∧ rd data 0 < 0x20) :
    (isotpFrame id dlc data a).2 = (isotpFrame id dlc data b).2 ∧
    sameSession (isotpFrame id dlc data a).1 (isotpFrame id dlc data b).1 := by
  have hn : ¬ rd data 0 < 0x10 := by omega
  have hr := firstFrameCopy_rel data (dlc - 2) 2
    { a with buffull := ((rd data 0 &&& 0xf) <<< 8) + rd data 1, bufflen := 0 }
    { b with buffull := ((rd data 0 &&& 0xf) <<< 8) + rd data 1, bufflen := 0 }
    ⟨rfl, rfl, hlen, fun k hk => absurd hk (Nat.not_lt_zero k)⟩
  unfold isotpFrame
  rw [if_neg hn, if_pos h.2, if_neg hn, if_pos h.2]
  refine ⟨?_, hr.2⟩
  show (firstFrameCopy _ _ _ _).2 ++ _ = (firstFrameCopy _ _ _ _).2 ++ _
  rw [hr.1]

/-- Every frame keeps two states that hold the same session in step. -/
theorem isotpFrame_rel (id dlc : Nat) (data : List Nat) (a b : State)
    (h : sameSession a b) :
    (isotpFrame id dlc data a).2 = (isotpFrame id dlc data b).2 ∧
    sameSession (isotpFrame id dlc data a).1 (isotpFrame id dlc data b).1 := by
  by_cases h1 : rd data 0 < 0x10
  · unfold isotpFrame
    rw [if_pos h1, if_pos h1]
    exact ⟨rfl, h⟩
  · by_cases h2 : rd data 0 < 0x20
    · exact isotpFrame_first_rel id dlc data a b h.2.2.1 ⟨by omega, h2⟩
    · by_cases h3 : rd data 0 < 0x30
      · obtain ⟨t, r⟩ := consecutiveCopy_rel data (dlc - 1) 1 a b h
        rw [isotpFrame_consecutive id dlc data a ⟨by omega, h3⟩,
          isotpFrame_consecutive id dlc data b ⟨by omega, h3⟩]
        by_cases hc : (consecutiveCopy data (dlc - 1) 1 a).1.bufflen
            = (consecutiveCopy data (dlc - 1) 1 a).1.buffull
        · have hc2 : (consecutiveCopy data (dlc - 1) 1 b).1.bufflen
              = (consecutiveCopy data (dlc - 1) 1 b).1.buffull := by
            rw [← r.1, ← r.2.1]; exact hc
          rw [if_pos hc, if_pos hc2]
          refine ⟨?_, r⟩
          show _ ++ _ = _ ++ _
          rw [t, ← r.1, udsFrame_congr _ _ _ _ (bytesAt_congr _ _ _ r.2.2.2)]
        · have hc2 : ¬ (consecutiveCopy data (dlc - 1) 1 b).1.bufflen
              = (consecutiveCopy data (dlc - 1) 1 b).1.buffull := by
            rw [← r.1, ← r.2.1]; exact hc
          rw [if_neg hc, if_neg hc2]
          exact ⟨t, r⟩
      · unfold isotpFrame
        rw [if_neg h1, if_neg h2, if_neg h3, if_neg h1, if_neg h2, if_neg h3]
        split_ifs <;> exact ⟨rfl, h⟩

theorem isotpFrames_rel : ∀ (fs : List can_frame) (a b : State), sameSession a b →
    (isotpFrames fs a).2 = (isotpFrames fs b).2 ∧
    sameSession (isotpFrames fs a).1 (isotpFrames fs b).1 := by
  intro fs
  induction fs with
  | nil => intro a b h; exact ⟨rfl, h⟩
  | cons f fs ih =>
    intro a b h
    obtain ⟨t, r⟩ := isotpFrame_rel f.can_id f.can_dlc f.data a b h
    obtain ⟨t2, r2⟩ := ih _ _ r
    simp only [isotpFrames]
    exact ⟨by rw [t, t2], r2⟩

/-- C5: a new first frame discards the prior session.  For any two prior
states (each with the 4096-byte buffer, whatever it holds and whatever
session is in progress), the same first frame followed by the same later
frames yields the same trace (the same stores, the same frames written, the
same requests handed to udsFrame with the same bytes), the same fill count
and the same target length; since the prior buffer content is arbitrary, no
byte stored before the new first frame reaches a later delivered payload. -/
theorem first_frame_discards_prior_session (s1 s2 : State) (ff : can_frame)
    (fs : List can_frame) (h1 : s1.wf) (h2 : s2.wf) (hff : isFirstFrame ff) :
    (isotpFrames (ff :: fs) s1).2 = (isotpFrames (ff :: fs) s2).2 ∧
    sentOf (isotpFrames (ff :: fs) s1).2 = sentOf (isotpFrames (ff :: fs) s2).2 ∧
    udsOf (isotpFrames (ff :: fs) s1).2 = udsOf (isotpFrames (ff :: fs) s2).2 ∧
    (isotpFrames (ff :: fs) s1).1.bufflen = (isotpFrames (ff :: fs) s2).1.bufflen ∧
    (isotpFrames (ff :: fs) s1).1.buffull = (isotpFrames (ff :: fs) s2).1.buffull ∧
    sameSession (isotpFrames (ff :: fs) s1).1 (isotpFrames (ff :: fs) s2).1 := by
  obtain ⟨t, r⟩ := isotpFrame_first_rel ff.can_id ff.can_dlc ff.data s1 s2
    (by rw [h1, h2]) hff
  obtain ⟨t2, r2⟩ := isotpFrames_rel fs _ _ r
  have ht : (isotpFrames (ff :: fs) s1).2 = (isotpFrames (ff :: fs) s2).2 := by
    simp only [isotpFrames]
    rw [t, t2]
  refine ⟨ht, by rw [ht], by rw [ht], r2.1, r2.2.1, r2⟩

theorem first_frame_discards_prior_session_witness :
    State.init.wf ∧
    State.wf { bufflen := 3, buffull := 10, buffie := List.replicate 4096 0xAA, lastSent := 0 } ∧
    udsOf (isotpFrames
      [{ can_id := 0x7D0, can_dlc := 8, data := [0x10, 0x08, 0x2C, 0x01, 0xF2, 0, 0, 0] },
       { can_id := 0x7D0, can_dlc := 3, data := [0x21, 0x01, 0x00, 0, 0, 0, 0, 0] }]
      State.init).2
    = udsOf (isotpFrames
      [{ can_id := 0x7D0, can_dlc := 8, data := [0x10, 0x08, 0x2C, 0x01, 0xF2, 0, 0, 0] },
       { can_id := 0x7D0, can_dlc := 3, data := [0x21, 0x01, 0x00, 0, 0, 0, 0, 0] }]
      { bufflen := 3, buffull := 10, buffie := List.replicate 4096 0xAA, lastSent := 0 }).2 :=
  ⟨init_wf, List.length_replicate 4096 0xAA,
   (first_frame_discards_prior_session State.init
      { bufflen := 3, buffull := 10, buffie := List.replicate 4096 0xAA, lastSent := 0 }
      { can_id := 0x7D0, can_dlc := 8, data := [0x10, 0x08, 0x2C, 0x01, 0xF2, 0, 0, 0] }
      [{ can_id := 0x7D0, can_dlc := 3, data := [0x21, 0x01, 0x00, 0, 0, 0, 0, 0] }]
      init_wf (List.length_replicate 4096 0xAA) (by decide)).2.2.1⟩

/-- C6 fails on the code: from the initial state, one first frame with DLC 8
that declares the length 2 leaves the fill count at 6 and the target length
at 2.  The first-frame loop copies all DLC - 2 bytes without the bound
bufflen < buffull that the consecutive-frame loop checks. -/
theorem session_invariant_broken_by_first_frame :
    (isotpFrame 0x7D0 8 [0x10, 0x02, 0x3E, 0x00, 0, 0, 0, 0] State.init).1.bufflen = 6 ∧
    (isotpFrame 0x7D0 8 [0x10, 0x02, 0x3E, 0x00, 0, 0, 0, 0] State.init).1.buffull = 2 ∧
    ¬ ((isotpFrame 0x7D0 8 [0x10, 0x02, 0x3E, 0x00, 0, 0, 0, 0] State.init).1.bufflen
        ≤ (isotpFrame 0x7D0 8 [0x10, 0x02, 0x3E, 0x00, 0, 0, 0, 0] State.init).1.buffull) := by
  decide

theorem consecutiveCopy_full (data : List Nat) (n i : Nat) (s : State)
    (h : ¬ s.bufflen < s.buffull) : consecutiveCopy data n i s = (s, []) := by
  cases n with
  | zero => rfl
  | succ n => simp [consecutiveCopy, h]

/-- A consecutive frame that finds the fill count equal to the target length
stores nothing and hands the buffer to udsFrame. -/
theorem isotpFrame_consecutive_full (id dlc : Nat) (data : List Nat) (s : State)
    (h : 0x20 ≤ rd data 0 ∧ rd data 0 < 0x30) (hfull : s.bufflen = s.buffull) :
    isotpFrame id dlc data s = (s, udsFrame id s.bufflen s.buffie) := by
  rw [isotpFrame_consecutive id dlc data s h,
    consecutiveCopy_full data (dlc - 1) 1 s (by omega), if_pos hfull]
  rfl

/-- C7 fails on the code: after the first frame 10 08 2C 01 F2 00 00 00 and
the consecutive frame 21 01 00 (DLC 3) the 8-byte request is delivered and
answered, and the fill count and the target length both stay at 8; the next
consecutive frame, 22 00 with DLC 2, delivers the same request again and the
answer 03 7F 2C 12 is written again. -/
theorem completed_message_delivered_again :
    udsOf (isotpFrames
      [{ can_id := 0x7D0, can_dlc := 8, data := [0x10, 0x08, 0x2C, 0x01, 0xF2, 0, 0, 0] },
       { can_id := 0x7D0, can_dlc := 3, data := [0x21, 0x01, 0x00, 0, 0, 0, 0, 0] }]
      State.init).2 = [(0x7D0, 8, [0x2C, 0x01, 0xF2, 0, 0, 0, 0x01, 0])] ∧
    (isotpFrames
      [{ can_id := 0x7D0, can_dlc := 8, data := [0x10, 0x08, 0x2C, 0x01, 0xF2, 0, 0, 0] },
       { can_id := 0x7D0, can_dlc := 3, data := [0x21, 0x01, 0x00, 0, 0, 0, 0, 0] }]
      State.init).1.bufflen = 8 ∧
    (isotpFrames
      [{ can_id := 0x7D0, can_dlc := 8, data := [0x10, 0x08, 0x2C, 0x01, 0xF2, 0, 0, 0] },
       { can_id := 0x7D0, can_dlc := 3, data := [0x21, 0x01, 0x00, 0, 0, 0, 0, 0] }]
      State.init).1.buffull = 8 ∧
    udsOf (isotpFrame 0x7D0 2 [0x22, 0, 0, 0, 0, 0, 0, 0] (isotpFrames
      [{ can_id := 0x7D0, can_dlc := 8, data := [0x10, 0x08, 0x2C, 0x01, 0xF2, 0, 0, 0] },
       { can_id := 0x7D0, can_dlc := 3, data := [0x21, 0x01, 0x00, 0, 0, 0, 0, 0] }]
      State.init).1).2 = [(0x7D0, 8, [0x2C, 0x01, 0xF2, 0, 0, 0, 0x01, 0])] ∧
    sentOf (isotpFrame 0x7D0 2 [0x22, 0, 0, 0, 0, 0, 0, 0] (isotpFrames
      [{ can_id := 0x7D0, can_dlc := 8, data := [0x10, 0x08, 0x2C, 0x01, 0xF2, 0, 0, 0] },
       { can_id := 0x7D0, can_dlc := 3, data := [0x21, 0x01, 0x00, 0, 0, 0, 0, 0] }]
      State.init).1).2 = [responseFrame [3, 0x7F, 0x2C, 0x12, 0, 0, 0, 0]] := by
  decide

/-! ## The VIN scenario in the dispatcher -/

/-- C11, as stated, fails: handed the 13-byte payload 49 02 S y n o p s y s
S I G, udsFrame writes no frame at all, whereas the VIN entry 09 02 of the
table has a two-frame response. -/
theorem vin_payload_counterexample :
    sentOf (udsFrame 0x7D0 13
      [0x49, 0x02, 0x53, 0x79, 0x6E, 0x6F, 0x70, 0x73, 0x79, 0x73, 0x53, 0x49, 0x47]) = [] ∧
    tableDispatch [0x09, 0x02] ≠ [] ∧
    sentOf (udsFrame 0x7D0 13
      [0x49, 0x02, 0x53, 0x79, 0x6E, 0x6F, 0x70, 0x73, 0x79, 0x73, 0x53, 0x49, 0x47])
      ≠ tableDispatch [0x09, 0x02] := by
  rw [sentOf_udsFrame]
  decide

/-- C11, amended: the 13-byte payload 49 02 S y n o p s y s S I G equals no
pattern of the table (the VIN query is the 2-byte pattern 09 02), so udsFrame,
handed a buffer that starts with these 13 bytes and the length 13, takes the
final else branch: it records the request and writes no frame, whatever the
request identifier. -/
theorem vin_payload_unsupported (id : Nat) (data : List Nat)
    (h : bytesAt data 13 =
      [0x49, 0x02, 0x53, 0x79, 0x6E, 0x6F, 0x70, 0x73, 0x79, 0x73, 0x53, 0x49, 0x47]) :
    udsFrame id 13 data =
      [Event.uds id 13
        [0x49, 0x02, 0x53, 0x79, 0x6E, 0x6F, 0x70, 0x73, 0x79, 0x73, 0x53, 0x49, 0x47]] ∧
    sentOf (udsFrame id 13 data) = [] ∧
    bytesAt data 13 ∉ patterns := by
  have hd : dispatchIn patternTable
      [0x49, 0x02, 0x53, 0x79, 0x6E, 0x6F, 0x70, 0x73, 0x79, 0x73, 0x53, 0x49, 0x47] = [] := by
    decide
  refine ⟨?_, ?_, ?_⟩
  · rw [udsFrame_eq_table, h, hd]; rfl
  · rw [sentOf_udsFrame, h]; exact hd
  · rw [h]; decide

theorem vin_payload_unsupported_witness :
    sentOf (udsFrame 0x7D0 13
      ([0x49, 0x02, 0x53, 0x79, 0x6E, 0x6F, 0x70, 0x73, 0x79, 0x73, 0x53, 0x49, 0x47]
        ++ [0, 0, 0])) = [] :=
  (vin_payload_unsupported 0x7D0
    ([0x49, 0x02, 0x53, 0x79, 0x6E, 0x6F, 0x70, 0x73, 0x79, 0x73, 0x53, 0x49, 0x47] ++ [0, 0, 0])
    (by decide)).2.1

/-! ## Single frames that declare more bytes than they carry -/

/-- C13 fails on the code: the frame with DLC 2 and data 02 3E 00 .. carries
one byte after the type byte, yet isotpFrame hands udsFrame the declared
length 2 and the bytes 3E 00, the second of which lies beyond the DLC, and the
Tester Present response is written; truncated to the DLC - 1 = 1 byte present,
the request would be the single byte 3E, which has no response. -/
theorem single_frame_not_truncated :
    udsOf (isotpFrame 0x7D0 2 [0x02, 0x3E, 0x00, 0, 0, 0, 0, 0] State.init).2
      = [(0x7D0, 2, [0x3E, 0x00])] ∧
    sentOf (isotpFrame 0x7D0 2 [0x02, 0x3E, 0x00, 0, 0, 0, 0, 0] State.init).2
      = [responseFrame [2, 0x7E, 0x00, 0, 0, 0, 0, 0]] ∧
    sentOf (udsFrame 0x7D0 1 [0x3E]) = [] := by
  decide

/-- In the single-frame branch the DLC is not read: the request handed to
udsFrame has the declared length data[0], whatever the DLC. -/
theorem isotpFrame_single (id dlc : Nat) (data : List Nat) (s : State)
    (h0 : rd data 0 < 0x10) :
    isotpFrame id dlc data s = (s, udsFrame id (rd data 0) (data.drop 1)) := by
  unfold isotpFrame
  rw [if_pos h0]

theorem storeOf_stores (l : List Nat) (g : Nat → Nat) (v : Nat → Nat) :
    storeOf (l.map (fun j => Event.store (g j) (v j))) = l.map g := by
  induction l with
  | nil => rfl
  | cons a t ih => simp [storeOf, ih]

/-! ## The first frame -/

/-- C14: first-frame postcondition.  From any state with the 4096-byte
buffer, a first frame (first byte b0 in 0x10..0x1F, second byte b1, eight data
bytes below 256, DLC d in 2..8) leaves the target length at
((b0 & 0x0F) << 8) + b1, which is at most 4095, the fill count at d - 2 and
data[2..d-1] in the first d - 2 bytes of the buffer; the stores go to the
indices 0..d-3; exactly one frame is written, with identifier 0x7D8, DLC 8 and
data 30 FF 01 00 00 00 00 00; udsFrame is not entered. -/
theorem first_frame_postcondition (s : State) (f : can_frame)
    (hs : s.wf) (hf : f.wf) (hfirst : isFirstFrame f) (hdlc : 2 ≤ f.can_dlc) :
    (isotpFrame f.can_id f.can_dlc f.data s).1.buffull
      = ((rd f.data 0 &&& 0x0F) <<< 8) + rd f.data 1 ∧
    (isotpFrame f.can_id f.can_dlc f.data s).1.buffull ≤ 4095 ∧
    (isotpFrame f.can_id f.can_dlc f.data s).1.bufflen = f.can_dlc - 2 ∧
    (isotpFrame f.can_id f.can_dlc f.data s).1.buffie.take (f.can_dlc - 2)
      = (f.data.take f.can_dlc).drop 2 ∧
    storeOf (isotpFrame f.can_id f.can_dlc f.data s).2 = List.range (f.can_dlc - 2) ∧
    sentOf (isotpFrame f.can_id f.can_dlc f.data s).2
      = [{ can_id := 0x7D8, can_dlc := 8, data := [0x30, 0xFF, 0x01, 0, 0, 0, 0, 0] }] ∧
    udsOf (isotpFrame f.can_id f.can_dlc f.data s).2 = [] := by
  obtain ⟨a1, a2, _, a4, a5, a6⟩ := isotpFrame_first f.can_id f.can_dlc f.data s hfirst
  have hcap : f.can_dlc - 2 ≤ s.buffie.length := by
    have := hf.2.1
    rw [hs]; omega
  have hT := declaredLength_le f hf
  unfold declaredLength at hT
  refine ⟨?_, ?_, a1, ?_, ?_, ?_, ?_⟩
  · rw [a2, declared_eq]
  · rw [a2]; exact hT
  · rw [← bytesAt_eq_take _ _ (by rw [a4]; exact hcap), a5 hcap, ← ffBytes_eq f hf]
    rfl
  · rw [a6, storeOf_append, storeOf_stores]
    simp [storeOf]
  · rw [a6, sentOf_append, (udsOf_stores _ _ (fun j => ⟨_, _, rfl⟩)).2.1]
    rfl
  · rw [a6, udsOf_append, (udsOf_stores _ _ (fun j => ⟨_, _, rfl⟩)).1]
    rfl

theorem first_frame_postcondition_witness :
    State.init.wf ∧
    (isotpFrame 0x7D0 6 [0x10, 0x0D, 0x49, 0x02, 0x53, 0x79, 0, 0] State.init).1.buffull = 13 ∧
    (isotpFrame 0x7D0 6 [0x10, 0x0D, 0x49, 0x02, 0x53, 0x79, 0, 0] State.init).1.bufflen = 4 :=
  ⟨init_wf,
   (first_frame_postcondition State.init
      { can_id := 0x7D0, can_dlc := 6, data := [0x10, 0x0D, 0x49, 0x02, 0x53, 0x79, 0, 0] }
      init_wf (by decide) (by decide) (by decide)).1,
   (first_frame_postcondition State.init
      { can_id := 0x7D0, can_dlc := 6, data := [0x10, 0x0D, 0x49, 0x02, 0x53, 0x79, 0, 0] }
      init_wf (by decide) (by decide) (by decide)).2.2.1⟩

/-! ## A consecutive frame without a session -/

/-- C15 fails on the code: in the initial state the fill count and the target
length are both 0, so a consecutive frame stores nothing, finds
bufflen == buffull and calls udsFrame(id, 0, buffie): the dispatcher is
entered with an empty request.  No frame is written and the state is
unchanged. -/
theorem sessionless_consecutive_frame_reaches_dispatcher :
    isotpFrame 0x7D0 8 [0x21, 1, 2, 3, 4, 5, 6, 7] State.init
      = (State.init, [Event.uds 0x7D0 0 []]) ∧
    udsOf (isotpFrame 0x7D0 8 [0x21, 1, 2, 3, 4, 5, 6, 7] State.init).2 = [(0x7D0, 0, [])] ∧
    sentOf (isotpFrame 0x7D0 8 [0x21, 1, 2, 3, 4, 5, 6, 7] State.init).2 = [] ∧
    storeOf (isotpFrame 0x7D0 8 [0x21, 1, 2, 3, 4, 5, 6, 7] State.init).2 = [] := by
  have h : isotpFrame 0x7D0 8 [0x21, 1, 2, 3, 4, 5, 6, 7] State.init
      = (State.init, [Event.uds 0x7D0 0 []]) := by
    rw [isotpFrame_consecutive_full 0x7D0 8 _ State.init (by decide) rfl, udsFrame_eq_table]
    rfl
  rw [h]
  exact ⟨rfl, rfl, rfl, rfl⟩

/-! ## Unrelated bus traffic -/

theorem isCrashTrigger_iff (f : can_frame) :
    isCrashTrigger f = true ↔
      f.can_dlc = 8 ∧ bytesAt f.data 8 = [0x03, 0x10, 0x06, 0, 0, 0, 0, 0] := by
  simp only [isCrashTrigger, bytesAt, List.range, List.range.loop, List.map,
    Bool.and_eq_true, beq_iff_eq, List.cons.injEq, and_true]
  constructor <;> intro h <;> simp_all

/-- C16, as stated, fails: with the crash flag set (the initialiser of
dut.c), a frame on the unrelated identifier 0x456 that carries the trigger
content makes rawFrame call sleep(5) twice. -/
theorem unrelated_traffic_counterexample :
    (0x456 : Nat) ≠ Config.default.suppressId ∧ (0x456 : Nat) ≠ 0x7D0 ∧ (0x456 : Nat) ≠ 0x71F ∧
    sleepOf (rawFrame Config.default
      { can_id := 0x456, can_dlc := 8, data := [0x03, 0x10, 0x06, 0, 0, 0, 0, 0] }
      State.init).2 = [5, 5] ∧
    sleepOf (rawFrame Config.default
      { can_id := 0x456, can_dlc := 8, data := [0x03, 0x10, 0x06, 0, 0, 0, 0, 0] }
      State.init).2 ≠ [] := by
  decide

/-- C16, amended: for every configuration, state and frame whose identifier
is neither the suppression identifier nor 0x7D0 nor 0x71F, rawFrame leaves the
state unchanged, writes no frame, stores nothing and does not enter udsFrame;
it calls sleep (twice, 5 seconds each) exactly when the crash flag is set and
the frame is the trigger frame (DLC 8, data 03 10 06 00 00 00 00 00), because
the crash test comes before the identifier test, and not otherwise. -/
theorem unrelated_traffic_ignored (c : Config) (f : can_frame) (s : State)
    (hsup : f.can_id ≠ c.suppressId) (h1 : f.can_id ≠ 0x7D0) (h2 : f.can_id ≠ 0x71F) :
    (rawFrame c f s).1 = s ∧
    sentOf (rawFrame c f s).2 = [] ∧
    udsOf (rawFrame c f s).2 = [] ∧
    storeOf (rawFrame c f s).2 = [] ∧
    sleepOf (rawFrame c f s).2 =
      (if c.crashdemo = true ∧ f.can_dlc = 8 ∧
          bytesAt f.data 8 = [0x03, 0x10, 0x06, 0, 0, 0, 0, 0]
       then [5, 5] else []) := by
  have hid : ¬ (f.can_id = 0x7D0 ∨ f.can_id = 0x71F) := by
    intro h; cases h with
    | inl h => exact h1 h
    | inr h => exact h2 h
  by_cases hc : c.crashdemo = true ∧ f.can_dlc = 8 ∧
      bytesAt f.data 8 = [0x03, 0x10, 0x06, 0, 0, 0, 0, 0]
  · have ht : isCrashTrigger f = true := (isCrashTrigger_iff f).2 hc.2
    have hd : ¬ f.can_dlc < 1 := by omega
    have hr : rawFrame c f s = (s, [Event.sleep 5, Event.sleep 5]) := by
      unfold rawFrame
      simp [hsup, hd, hc.1, ht]
    rw [hr, if_pos hc]
    exact ⟨rfl, rfl, rfl, rfl, rfl⟩
  · have ht : ¬ ((c.crashdemo && isCrashTrigger f) = true) := by
      intro h
      rw [Bool.and_eq_true] at h
      exact hc ⟨h.1, (isCrashTrigger_iff f).1 h.2⟩
    have hr : rawFrame c f s = (s, []) := by
      unfold rawFrame
      simp only [if_neg hsup, if_neg ht, if_neg hid]
      split_ifs <;> rfl
    rw [hr, if_neg hc]
    exact ⟨rfl, rfl, rfl, rfl, rfl⟩

theorem unrelated_traffic_ignored_witness :
    (0x456 : Nat) ≠ Config.default.suppressId ∧
    sentOf (rawFrame Config.default
      { can_id := 0x456, can_dlc := 8, data := [0x02, 0x3E, 0x00, 0, 0, 0, 0, 0] }
      State.init).2 = [] ∧
    sleepOf (rawFrame Config.default
      { can_id := 0x456, can_dlc := 8, data := [0x02, 0x3E, 0x00, 0, 0, 0, 0, 0] }
      State.init).2 = [] :=
  ⟨by decide,
   (unrelated_traffic_ignored Config.default
      { can_id := 0x456, can_dlc := 8, data := [0x02, 0x3E, 0x00, 0, 0, 0, 0, 0] }
      State.init (by decide) (by decide) (by decide)).2.1,
   (unrelated_traffic_ignored Config.default
      { can_id := 0x456, can_dlc := 8, data := [0x02, 0x3E, 0x00, 0, 0, 0, 0, 0] }
      State.init (by decide) (by decide) (by decide)).2.2.2.2⟩

/-! ## Consecutive frames: append with truncation -/

/-- The consecutive-frame loop leaves the buffer untouched from the new fill
count onwards. -/
theorem consecutiveCopy_above (data : List Nat) : ∀ (n i : Nat) (s : State) (k : Nat),
    s.bufflen + min n (s.buffull - s.bufflen) ≤ k →
    rd (consecutiveCopy data n i s).1.buffie k = rd s.buffie k := by
  intro n
  induction n with
  | zero => intro i s k _; rfl
  | succ n ih =>
    intro i s k hk
    by_cases h : s.bufflen < s.buffull
    · have hm : min (n + 1) (s.buffull - s.bufflen)
          = min n (s.buffull - (s.bufflen + 1)) + 1 := by omega
      have := ih (i + 1)
        { s with buffie := s.buffie.set s.bufflen (rd data i), bufflen := s.bufflen + 1 } k
        (by show s.bufflen + 1 + min n (s.buffull - (s.bufflen + 1)) ≤ k; omega)
      simp only [consecutiveCopy, if_pos h]
      rw [this, rd_set]
      have hne : ¬ (s.bufflen = k ∧ s.bufflen < s.buffie.length) := by omega
      rw [if_neg hne]
    · simp [consecutiveCopy, h]

theorem take_range_map (g : Nat → Nat) (n m : Nat) (h : m ≤ n) :
    ((List.range n).map g).take m = (List.range m).map g := by
  apply List.ext_getElem
  · simp [h]
  · intro i h1 h2
    simp

theorem isotpFrame_length (id dlc : Nat) (data : List Nat) (s : State) :
    (isotpFrame id dlc data s).1.buffie.length = s.buffie.length := by
  by_cases h1 : rd data 0 < 0x10
  · rw [isotpFrame_single id dlc data s h1]
  · by_cases h2 : rd data 0 < 0x20
    · exact (isotpFrame_first id dlc data s ⟨by omega, h2⟩).2.2.2.1
    · by_cases h3 : rd data 0 < 0x30
      · rw [isotpFrame_consecutive id dlc data s ⟨by omega, h3⟩]
        have := (consecutiveCopy_spec data (dlc - 1) 1 s).2.2.2.1
        split_ifs <;> exact this
      · unfold isotpFrame
        rw [if_neg h1, if_neg h2, if_neg h3]
        split_ifs <;> rfl

theorem isotpFrames_wf : ∀ (fs : List can_frame) (s : State), s.wf → (isotpFrames fs s).1.wf := by
  intro fs
  induction fs with
  | nil => intro s h; exact h
  | cons f fs ih =>
    intro s h
    simp only [isotpFrames]
    apply ih
    unfold State.wf at h ⊢
    rw [isotpFrame_length, h]

/-- C12: consecutive-frame append with truncation.  For a state with the
4096-byte buffer whose fill count f is below its target length T (at most
4095) and a consecutive frame with DLC d in 1..8, isotpFrame stores exactly
the first min(d - 1, T - f) bytes that follow byte 0, in order, at the
positions f, f + 1, ... of the buffer, leaves the buffer unchanged from the new
fill count onwards (the remaining bytes of the frame are not stored), keeps T,
and enters udsFrame, once, with length T and the first T bytes of the buffer,
if and only if the new fill count equals T. -/
theorem consecutive_frame_append (s : State) (f : can_frame)
    (hs : s.wf) (hf : f.wf) (hcf : isConsecutiveFrame f) (hdlc : 1 ≤ f.can_dlc)
    (hlt : s.bufflen < s.buffull) (hcap : s.buffull ≤ 4095) :
    (isotpFrame f.can_id f.can_dlc f.data s).1.bufflen = s.bufflen + cfAppendCount s f ∧
    (isotpFrame f.can_id f.can_dlc f.data s).1.buffull = s.buffull ∧
    (isotpFrame f.can_id f.can_dlc f.data s).1.buffie.take (s.bufflen + cfAppendCount s f)
      = s.buffie.take s.bufflen ++ (cfBytes f).take (cfAppendCount s f) ∧
    (∀ k, s.bufflen + cfAppendCount s f ≤ k →
      rd (isotpFrame f.can_id f.can_dlc f.data s).1.buffie k = rd s.buffie k) ∧
    storeOf (isotpFrame f.can_id f.can_dlc f.data s).2
      = (List.range (cfAppendCount s f)).map (fun j => s.bufflen + j) ∧
    udsOf (isotpFrame f.can_id f.can_dlc f.data s).2 =
      (if s.bufflen + cfAppendCount s f = s.buffull then
        [(f.can_id, s.buffull,
          (isotpFrame f.can_id f.can_dlc f.data s).1.buffie.take s.buffull)]
       else []) := by
  unfold cfAppendCount
  obtain ⟨h1, h2, _, h4, h5, h6, h7⟩ := consecutiveCopy_spec f.data (f.can_dlc - 1) 1 s
  have h8 := consecutiveCopy_above f.data (f.can_dlc - 1) 1 s
  have hlen : s.buffie.length = 4096 := hs
  have hst : udsOf (consecutiveCopy f.data (f.can_dlc - 1) 1 s).2 = [] := by
    rw [h7]
    exact (udsOf_stores _ _ (fun j => ⟨_, _, rfl⟩)).1
  have hsto : storeOf (consecutiveCopy f.data (f.can_dlc - 1) 1 s).2
      = (List.range (min (f.can_dlc - 1) (s.buffull - s.bufflen))).map
          (fun j => s.bufflen + j) := by
    rw [h7, storeOf_stores]
  have hbytes : (consecutiveCopy f.data (f.can_dlc - 1) 1 s).1.buffie.take
        (s.bufflen + min (f.can_dlc - 1) (s.buffull - s.bufflen))
      = s.buffie.take s.bufflen
        ++ (cfBytes f).take (min (f.can_dlc - 1) (s.buffull - s.bufflen)) := by
    rw [← bytesAt_eq_take _ _ (by rw [h4]; omega), ← bytesAt_eq_take _ _ (by omega),
      bytesAt_add, cfBytes_eq f hf, take_range_map _ _ _ (by omega)]
    congr 1
    · exact bytesAt_congr _ _ _ h5
    · apply List.map_congr_left
      intro j hj
      have hj2 := List.mem_range.mp hj
      exact h6 j hj2 (by omega)
  rw [isotpFrame_consecutive _ _ _ _ hcf]
  by_cases hdone : s.bufflen + min (f.can_dlc - 1) (s.buffull - s.bufflen) = s.buffull
  · have hc : (consecutiveCopy f.data (f.can_dlc - 1) 1 s).1.bufflen
        = (consecutiveCopy f.data (f.can_dlc - 1) 1 s).1.buffull := by
      rw [h1, h2, hdone]
    rw [if_pos hc, if_pos hdone]
    refine ⟨h1, h2, hbytes, h8, ?_, ?_⟩
    · show storeOf (_ ++ _) = _
      rw [storeOf_append, hsto, storeOf_udsFrame, List.append_nil]
    · show udsOf (_ ++ _) = _
      rw [udsOf_append, hst, udsOf_udsFrame, h1, hdone,
        bytesAt_eq_take _ _ (by rw [h4]; omega)]
      rfl
  · have hc : ¬ (consecutiveCopy f.data (f.can_dlc - 1) 1 s).1.bufflen
        = (consecutiveCopy f.data (f.can_dlc - 1) 1 s).1.buffull := by
      rw [h1, h2]; exact hdone
    rw [if_neg hc, if_neg hdone]
    exact ⟨h1, h2, hbytes, h8, hsto, hst⟩

theorem consecutive_frame_append_witness :
    (isotpFrames
      [{ can_id := 0x7D0, can_dlc := 6, data := [0x10, 0x0D, 0x49, 0x02, 0x53, 0x79, 0, 0] },
       { can_id := 0x7D0, can_dlc := 7, data := [0x21, 0x6E, 0x6F, 0x70, 0x73, 0x79, 0x73, 0] }]
      State.init).1.wf ∧
    storeOf (isotpFrame 0x7D0 8 [0x22, 0x53, 0x49, 0x47, 0, 0, 0, 0] (isotpFrames
      [{ can_id := 0x7D0, can_dlc := 6, data := [0x10, 0x0D, 0x49, 0x02, 0x53, 0x79, 0, 0] },
       { can_id := 0x7D0, can_dlc := 7, data := [0x21, 0x6E, 0x6F, 0x70, 0x73, 0x79, 0x73, 0] }]
      State.init).1).2 = [10, 11, 12] ∧
    (isotpFrame 0x7D0 8 [0x22, 0x53, 0x49, 0x47, 0, 0, 0, 0] (isotpFrames
      [{ can_id := 0x7D0, can_dlc := 6, data := [0x10, 0x0D, 0x49, 0x02, 0x53, 0x79, 0, 0] },
       { can_id := 0x7D0, can_dlc := 7, data := [0x21, 0x6E, 0x6F, 0x70, 0x73, 0x79, 0x73, 0] }]
      State.init).1).1.bufflen = 13 ∧
    udsOf (isotpFrame 0x7D0 8 [0x22, 0x53, 0x49, 0x47, 0, 0, 0, 0] (isotpFrames
      [{ can_id := 0x7D0, can_dlc := 6, data := [0x10, 0x0D, 0x49, 0x02, 0x53, 0x79, 0, 0] },
       { can_id := 0x7D0, can_dlc := 7, data := [0x21, 0x6E, 0x6F, 0x70, 0x73, 0x79, 0x73, 0] }]
      State.init).1).2
      = [(0x7D0, 13, [0x49, 0x02, 0x53, 0x79, 0x6E, 0x6F, 0x70, 0x73, 0x79, 0x73,
                      0x53, 0x49, 0x47])] :=
  ⟨isotpFrames_wf _ _ init_wf,
   (consecutive_frame_append
      (isotpFrames
        [{ can_id := 0x7D0, can_dlc := 6, data := [0x10, 0x0D, 0x49, 0x02, 0x53, 0x79, 0, 0] },
         { can_id := 0x7D0, can_dlc := 7, data := [0x21, 0x6E, 0x6F, 0x70, 0x73, 0x79, 0x73, 0] }]
        State.init).1
      { can_id := 0x7D0, can_dlc := 8, data := [0x22, 0x53, 0x49, 0x47, 0, 0, 0, 0] }
      (isotpFrames_wf _ _ init_wf) (by decide) (by decide) (by decide) (by decide)
      (by decide)).2.2.2.2.1,
   (consecutive_frame_append
      (isotpFrames
        [{ can_id := 0x7D0, can_dlc := 6, data := [0x10, 0x0D, 0x49, 0x02, 0x53, 0x79, 0, 0] },
         { can_id := 0x7D0, can_dlc := 7, data := [0x21, 0x6E, 0x6F, 0x70, 0x73, 0x79, 0x73, 0] }]
        State.init).1
      { can_id := 0x7D0, can_dlc := 8, data := [0x22, 0x53, 0x49, 0x47, 0, 0, 0, 0] }
      (isotpFrames_wf _ _ init_wf) (by decide) (by decide) (by decide) (by decide)
      (by decide)).1,
   (consecutive_frame_append
      (isotpFrames
        [{ can_id := 0x7D0, can_dlc := 6, data := [0x10, 0x0D, 0x49, 0x02, 0x53, 0x79, 0, 0] },
         { can_id := 0x7D0, can_dlc := 7, data := [0x21, 0x6E, 0x6F, 0x70, 0x73, 0x79, 0x73, 0] }]
        State.init).1
      { can_id := 0x7D0, can_dlc := 8, data := [0x22, 0x53, 0x49, 0x47, 0, 0, 0, 0] }
      (isotpFrames_wf _ _ init_wf) (by decide) (by decide) (by decide) (by decide)
      (by decide)).2.2.2.2.2⟩

/-! ## The periodic emitter -/

/-- C18 fails on the code: the test rand() % 100 > loss sends a due frame only
for the draws above the loss setting, so with the setting L in 1..99 the frame
is dropped for the L + 1 draws 0..L, not for L of them (2 draws for L = 1, all
100 draws for L = 99); with L = 0 no frame is dropped. -/
theorem beacon_loss_off_by_one :
    dropCount 1 = 2 ∧ dropCount 50 = 51 ∧ dropCount 99 = 100 ∧ dropCount 0 = 0 ∧
    beaconSends 1 0 = false ∧ beaconSends 1 1 = false ∧ beaconSends 1 2 = true ∧
    (List.range 99).all (fun k => dropCount (k + 1) == k + 2) = true := by
  decide

/-! ## Buffer bounds -/

/-- One frame keeps the buffer bounds: the buffer keeps its 4096 bytes, the
fill count stays at most max(buffull, 6), the target length stays at most
4095, and every store of the frame is at an index below 4096. -/
theorem isotpFrame_bounds (f : can_frame) (s : State) (hf : f.wf)
    (hlen : s.buffie.length = 4096) (hfill : s.bufflen ≤ max s.buffull 6)
    (hfull : s.buffull ≤ 4095) :
    (isotpFrame f.can_id f.can_dlc f.data s).1.buffie.length = 4096 ∧
    (isotpFrame f.can_id f.can_dlc f.data s).1.bufflen
      ≤ max (isotpFrame f.can_id f.can_dlc f.data s).1.buffull 6 ∧
    (isotpFrame f.can_id f.can_dlc f.data s).1.buffull ≤ 4095 ∧
    ∀ i ∈ storeOf (isotpFrame f.can_id f.can_dlc f.data s).2, i < 4096 := by
  have hl := isotpFrame_length f.can_id f.can_dlc f.data s
  rw [hlen] at hl
  have hd := hf.2.1
  by_cases h1 : rd f.data 0 < 0x10
  · rw [isotpFrame_single _ _ _ _ h1]
    refine ⟨hlen, hfill, hfull, ?_⟩
    intro i hi
    rw [storeOf_udsFrame] at hi
    simp at hi
  · by_cases h2 : rd f.data 0 < 0x20
    · obtain ⟨a1, a2, _, _, _, a6⟩ :=
        isotpFrame_first f.can_id f.can_dlc f.data s ⟨by omega, h2⟩
      have hT := declaredLength_le f hf
      unfold declaredLength at hT
      refine ⟨hl, by rw [a1, a2]; omega, by rw [a2]; exact hT, ?_⟩
      intro i hi
      rw [a6, storeOf_append, storeOf_stores] at hi
      simp [storeOf] at hi
      omega
    · by_cases h3 : rd f.data 0 < 0x30
      · obtain ⟨c1, c2, _, _, _, _, c7⟩ := consecutiveCopy_spec f.data (f.can_dlc - 1) 1 s
        have hsto : ∀ i ∈ storeOf (consecutiveCopy f.data (f.can_dlc - 1) 1 s).2,
            i < 4096 := by
          intro i hi
          rw [c7, storeOf_stores] at hi
          simp at hi
          obtain ⟨j, hj, rfl⟩ := hi
          omega
        refine ⟨hl, ?_, ?_, ?_⟩
        · rw [isotpFrame_consecutive _ _ _ _ ⟨by omega, h3⟩]
          split_ifs <;> (show (consecutiveCopy _ _ _ _).1.bufflen ≤ _; rw [c1, c2]; omega)
        · rw [isotpFrame_consecutive _ _ _ _ ⟨by omega, h3⟩]
          split_ifs <;> (show (consecutiveCopy _ _ _ _).1.buffull ≤ _; rw [c2]; exact hfull)
        · rw [isotpFrame_consecutive _ _ _ _ ⟨by omega, h3⟩]
          split_ifs
          · intro i hi
            have hi2 : i ∈ storeOf ((consecutiveCopy f.data (f.can_dlc - 1) 1 s).2
                ++ udsFrame f.can_id (consecutiveCopy f.data (f.can_dlc - 1) 1 s).1.bufflen
                    (consecutiveCopy f.data (f.can_dlc - 1) 1 s).1.buffie) := hi
            rw [storeOf_append, storeOf_udsFrame, List.append_nil] at hi2
            exact hsto i hi2
          · exact hsto
      · have hu : isotpFrame f.can_id f.can_dlc f.data s = (s, []) := by
          unfold isotpFrame
          rw [if_neg h1, if_neg h2, if_neg h3]
          split_ifs <;> rfl
        rw [hu]
        refine ⟨hlen, hfill, hfull, ?_⟩
        intro i hi
        simp [storeOf] at hi

theorem isotpFrames_bounds : ∀ (fs : List can_frame) (s : State), (∀ f ∈ fs, f.wf) →
    s.buffie.length = 4096 → s.bufflen ≤ max s.buffull 6 → s.buffull ≤ 4095 →
    (isotpFrames fs s).1.buffie.length = 4096 ∧
    (isotpFrames fs s).1.bufflen ≤ max (isotpFrames fs s).1.buffull 6 ∧
    (isotpFrames fs s).1.buffull ≤ 4095 ∧
    ∀ i ∈ storeOf (isotpFrames fs s).2, i < 4096 := by
  intro fs
  induction fs with
  | nil =>
    intro s _ h1 h2 h3
    refine ⟨h1, h2, h3, ?_⟩
    intro i hi
    simp [isotpFrames, storeOf] at hi
  | cons f fs ih =>
    intro s hall h1 h2 h3
    obtain ⟨a1, a2, a3, a4⟩ :=
      isotpFrame_bounds f s (hall f (List.mem_cons_self f fs)) h1 h2 h3
    obtain ⟨b1, b2, b3, b4⟩ := ih _ (fun g hg => hall g (List.mem_cons_of_mem f hg)) a1 a2 a3
    simp only [isotpFrames]
    refine ⟨b1, b2, b3, ?_⟩
    intro i hi
    rw [storeOf_append, List.mem_append] at hi
    cases hi with
    | inl h => exact a4 i h
    | inr h => exact b4 i h

/-- C19: buffer-bounds safety.  From the initial state, after any sequence of
frames with eight data bytes below 256 and DLC at most 8 handled by
isotpFrame, every store into the buffer was at an index below 4096, the
buffer still has its 4096 bytes, and the fill count is at most
max(target length, 6), which is at most 4095 (also when a first frame declares
fewer bytes than it carries); as this holds for every sequence, it holds after
every frame on the way. -/
theorem buffer_bounds_safe (fs : List can_frame) (hfs : ∀ f ∈ fs, f.wf) :
    (∀ i ∈ storeOf (isotpFrames fs State.init).2, i < 4096) ∧
    (isotpFrames fs State.init).1.buffie.length = 4096 ∧
    (isotpFrames fs State.init).1.bufflen ≤ max (isotpFrames fs State.init).1.buffull 6 ∧
    max (isotpFrames fs State.init).1.buffull 6 ≤ 4095 := by
  obtain ⟨h1, h2, h3, h4⟩ := isotpFrames_bounds fs State.init hfs init_wf
    (by decide) (by decide)
  exact ⟨h4, h1, h2, by omega⟩

theorem buffer_bounds_safe_witness :
    (∀ f ∈ [({ can_id := 0x7D0, can_dlc := 8,
               data := [0x10, 0x02, 0x3E, 0x00, 0xAA, 0xBB, 0xCC, 0xDD] } : can_frame),
            { can_id := 0x7D0, can_dlc := 8, data := [0x21, 1, 2, 3, 4, 5, 6, 7] }], f.wf) ∧
    (isotpFrames
      [{ can_id := 0x7D0, can_dlc := 8,
         data := [0x10, 0x02, 0x3E, 0x00, 0xAA, 0xBB, 0xCC, 0xDD] },
       { can_id := 0x7D0, can_dlc := 8, data := [0x21, 1, 2, 3, 4, 5, 6, 7] }]
      State.init).1.bufflen ≤ max (isotpFrames
      [{ can_id := 0x7D0, can_dlc := 8,
         data := [0x10, 0x02, 0x3E, 0x00, 0xAA, 0xBB, 0xCC, 0xDD] },
       { can_id := 0x7D0, can_dlc := 8, data := [0x21, 1, 2, 3, 4, 5, 6, 7] }]
      State.init).1.buffull 6 :=
  ⟨by decide,
   (buffer_bounds_safe
      [{ can_id := 0x7D0, can_dlc := 8,
         data := [0x10, 0x02, 0x3E, 0x00, 0xAA, 0xBB, 0xCC, 0xDD] },
       { can_id := 0x7D0, can_dlc := 8, data := [0x21, 1, 2, 3, 4, 5, 6, 7] }]
      (by decide)).2.2.1⟩

/-! ## A first frame alone -/

/-- C20: a first frame never delivers by itself.  For every state and every
first frame, isotpFrame does not enter udsFrame while handling it and writes
the flow-control frame only, also when the bytes it seeds already number the
declared length T (T = DLC - 2, T = 0 included).  In that case (state with the
4096-byte buffer, well-formed first frame) the next consecutive frame, whatever
it carries, stores none of its bytes, leaves the state as it is and enters
udsFrame once with length T and the bytes the first frame seeded. -/
theorem first_frame_never_delivers (s : State) (ff : can_frame) (hfirst : isFirstFrame ff) :
    udsOf (isotpFrame ff.can_id ff.can_dlc ff.data s).2 = [] ∧
    sentOf (isotpFrame ff.can_id ff.can_dlc ff.data s).2
      = [{ can_id := 0x7D8, can_dlc := 8, data := [0x30, 0xFF, 0x01, 0, 0, 0, 0, 0] }] ∧
    (∀ cf : can_frame, s.wf → ff.wf → isConsecutiveFrame cf →
      declaredLength ff = ff.can_dlc - 2 →
      (isotpFrame cf.can_id cf.can_dlc cf.data
          (isotpFrame ff.can_id ff.can_dlc ff.data s).1).1
        = (isotpFrame ff.can_id ff.can_dlc ff.data s).1 ∧
      storeOf (isotpFrame cf.can_id cf.can_dlc cf.data
          (isotpFrame ff.can_id ff.can_dlc ff.data s).1).2 = [] ∧
      udsOf (isotpFrame cf.can_id cf.can_dlc cf.data
          (isotpFrame ff.can_id ff.can_dlc ff.data s).1).2
        = [(cf.can_id, declaredLength ff, ffBytes ff)]) := by
  obtain ⟨a1, a2, _, _, a5, a6⟩ := isotpFrame_first ff.can_id ff.can_dlc ff.data s hfirst
  refine ⟨?_, ?_, ?_⟩
  · rw [a6, udsOf_append, (udsOf_stores _ _ (fun j => ⟨_, _, rfl⟩)).1]
    rfl
  · rw [a6, sentOf_append, (udsOf_stores _ _ (fun j => ⟨_, _, rfl⟩)).2.1]
    rfl
  · intro cf hs hff hcf hT
    have hfull : (isotpFrame ff.can_id ff.can_dlc ff.data s).1.bufflen
        = (isotpFrame ff.can_id ff.can_dlc ff.data s).1.buffull := by
      rw [a1, a2]
      unfold declaredLength at hT
      exact hT.symm
    have hcap : ff.can_dlc - 2 ≤ s.buffie.length := by
      have := hff.2.1
      rw [hs]; omega
    rw [isotpFrame_consecutive_full cf.can_id cf.can_dlc cf.data _ hcf hfull]
    refine ⟨rfl, ?_, ?_⟩
    · show storeOf (udsFrame _ _ _) = []
      rw [storeOf_udsFrame]
    · show udsOf (udsFrame _ _ _) = _
      rw [udsOf_udsFrame, a1, a5 hcap, ← ffBytes_eq ff hff, hT]

theorem first_frame_never_delivers_witness :
    isFirstFrame { can_id := 0x7D0, can_dlc := 4, data := [0x10, 0x02, 0x3E, 0x00, 0, 0, 0, 0] } ∧
    udsOf (isotpFrame 0x7D0 4 [0x10, 0x02, 0x3E, 0x00, 0, 0, 0, 0] State.init).2 = [] ∧
    udsOf (isotpFrame 0x7D0 8 [0x21, 1, 2, 3, 4, 5, 6, 7]
      (isotpFrame 0x7D0 4 [0x10, 0x02, 0x3E, 0x00, 0, 0, 0, 0] State.init).1).2
      = [(0x7D0, 2, [0x3E, 0x00])] :=
  ⟨by decide,
   (first_frame_never_delivers State.init
      { can_id := 0x7D0, can_dlc := 4, data := [0x10, 0x02, 0x3E, 0x00, 0, 0, 0, 0] }
      (by decide)).1,
   ((first_frame_never_delivers State.init
      { can_id := 0x7D0, can_dlc := 4, data := [0x10, 0x02, 0x3E, 0x00, 0, 0, 0, 0] }
      (by decide)).2.2
      { can_id := 0x7D0, can_dlc := 8, data := [0x21, 1, 2, 3, 4, 5, 6, 7] }
      init_wf (by decide) (by decide) (by decide)).2.2⟩

/-! ## The over-seeded session -/

/-- With the fill count above the target length, a frame that is not a first
frame changes nothing in the state, and a consecutive frame has no effect at
all. -/
theorem isotpFrame_stuck (f : can_frame) (s : State) (hstuck : s.buffull < s.bufflen)
    (hnot : ¬ isFirstFrame f) :
    (isotpFrame f.can_id f.can_dlc f.data s).1 = s ∧
    (isConsecutiveFrame f → isotpFrame f.can_id f.can_dlc f.data s = (s, [])) := by
  have hcopy := consecutiveCopy_full f.data (f.can_dlc - 1) 1 s (by omega)
  have hcf : isConsecutiveFrame f → isotpFrame f.can_id f.can_dlc f.data s = (s, []) := by
    intro h
    rw [isotpFrame_consecutive _ _ _ _ h, hcopy]
    have hne : ¬ s.bufflen = s.buffull := by omega
    exact if_neg hne
  refine ⟨?_, hcf⟩
  by_cases h1 : rd f.data 0 < 0x10
  · rw [isotpFrame_single _ _ _ _ h1]
  · by_cases h2 : rd f.data 0 < 0x20
    · exact absurd (show isFirstFrame f from ⟨by omega, h2⟩) hnot
    · by_cases h3 : rd f.data 0 < 0x30
      · rw [hcf ⟨by omega, h3⟩]
      · unfold isotpFrame
        rw [if_neg h1, if_neg h2, if_neg h3]
        split_ifs <;> rfl

theorem isotpFrames_stuck : ∀ (fs : List can_frame) (s : State), s.buffull < s.bufflen →
    (∀ f ∈ fs, ¬ isFirstFrame f) →
    (isotpFrames fs s).1 = s ∧
    ((∀ f ∈ fs, isConsecutiveFrame f) → isotpFrames fs s = (s, [])) := by
  intro fs
  induction fs with
  | nil => intro s _ _; exact ⟨rfl, fun _ => rfl⟩
  | cons f fs ih =>
    intro s hstuck hall
    obtain ⟨a1, a2⟩ := isotpFrame_stuck f s hstuck (hall f (List.mem_cons_self f fs))
    obtain ⟨b1, b2⟩ := ih s hstuck (fun g hg => hall g (List.mem_cons_of_mem f hg))
    refine ⟨?_, ?_⟩
    · simp only [isotpFrames]
      rw [a1, b1]
    · intro hcf
      simp only [isotpFrames]
      rw [a2 (hcf f (List.mem_cons_self f fs)),
        b2 (fun g hg => hcf g (List.mem_cons_of_mem f hg))]
      rfl

/-- C21: an over-seeded session is stuck.  After a first frame that declares
a total length T below the DLC - 2 bytes it carries, the fill count DLC - 2 is
above the target length T.  From then on every sequence of consecutive frames,
of any length and content, leaves the whole state as it is with an empty trace:
nothing is stored, udsFrame is never entered, fill count and target length do
not change.  No sequence of frames without a first frame changes the state
either; a new first frame g does, setting the fill count to its DLC - 2 and
the target length to the length it declares. -/
theorem over_seeded_session_stuck (s : State) (ff : can_frame)
    (hfirst : isFirstFrame ff) (hover : declaredLength ff < ff.can_dlc - 2) :
    (isotpFrame ff.can_id ff.can_dlc ff.data s).1.buffull
      < (isotpFrame ff.can_id ff.can_dlc ff.data s).1.bufflen ∧
    (∀ cfs : List can_frame, (∀ f ∈ cfs, isConsecutiveFrame f) →
      isotpFrames cfs (isotpFrame ff.can_id ff.can_dlc ff.data s).1
        = ((isotpFrame ff.can_id ff.can_dlc ff.data s).1, [])) ∧
    (∀ cfs : List can_frame, (∀ f ∈ cfs, isConsecutiveFrame f) →
      udsOf (isotpFrames (ff :: cfs) s).2 = [] ∧
      (isotpFrames (ff :: cfs) s).1.bufflen = ff.can_dlc - 2 ∧
      (isotpFrames (ff :: cfs) s).1.buffull = declaredLength ff) ∧
    (∀ fs : List can_frame, (∀ f ∈ fs, ¬ isFirstFrame f) →
      (isotpFrames fs (isotpFrame ff.can_id ff.can_dlc ff.data s).1).1
        = (isotpFrame ff.can_id ff.can_dlc ff.data s).1) ∧
    (∀ (fs : List can_frame) (g : can_frame), (∀ f ∈ fs, ¬ isFirstFrame f) →
      isFirstFrame g →
      (isotpFrames (ff :: (fs ++ [g])) s).1.bufflen = g.can_dlc - 2 ∧
      (isotpFrames (ff :: (fs ++ [g])) s).1.buffull = declaredLength g) := by
  obtain ⟨a1, a2, _, _, _, a6⟩ := isotpFrame_first ff.can_id ff.can_dlc ff.data s hfirst
  have hT : (isotpFrame ff.can_id ff.can_dlc ff.data s).1.buffull = declaredLength ff := a2
  have hstuck : (isotpFrame ff.can_id ff.can_dlc ff.data s).1.buffull
      < (isotpFrame ff.can_id ff.can_dlc ff.data s).1.bufflen := by
    rw [hT, a1]; exact hover
  have hnf : ∀ cfs : List can_frame, (∀ f ∈ cfs, isConsecutiveFrame f) →
      ∀ f ∈ cfs, ¬ isFirstFrame f := by
    intro cfs h f hf hff
    have h2 := h f hf
    unfold isConsecutiveFrame at h2
    unfold isFirstFrame at hff
    omega
  have huds : udsOf (isotpFrame ff.can_id ff.can_dlc ff.data s).2 = [] := by
    rw [a6, udsOf_append, (udsOf_stores _ _ (fun j => ⟨_, _, rfl⟩)).1]
    rfl
  refine ⟨hstuck, ?_, ?_, ?_, ?_⟩
  · intro cfs hcf
    exact (isotpFrames_stuck cfs _ hstuck (hnf cfs hcf)).2 hcf
  · intro cfs hcf
    have h := (isotpFrames_stuck cfs _ hstuck (hnf cfs hcf)).2 hcf
    simp only [isotpFrames]
    rw [h]
    exact ⟨by rw [udsOf_append, huds]; rfl, a1, hT⟩
  · intro fs hfs
    exact (isotpFrames_stuck fs _ hstuck hfs).1
  · intro fs g hfs hg
    have h := (isotpFrames_stuck fs _ hstuck hfs).1
    obtain ⟨g1, g2, _⟩ := isotpFrame_first g.can_id g.can_dlc g.data
      (isotpFrame ff.can_id ff.can_dlc ff.data s).1 hg
    have hrun : (isotpFrames (ff :: (fs ++ [g])) s).1
        = (isotpFrame g.can_id g.can_dlc g.data
            (isotpFrame ff.can_id ff.can_dlc ff.data s).1).1 := by
      simp only [isotpFrames]
      rw [isotpFrames_append]
      simp only [isotpFrames]
      rw [h]
    rw [hrun]
    exact ⟨g1, g2⟩

theorem over_seeded_session_stuck_witness :
    isFirstFrame { can_id := 0x7D0, can_dlc := 8, data := [0x10, 0x02, 0x3E, 0x00, 1, 2, 3, 4] } ∧
    declaredLength { can_id := 0x7D0, can_dlc := 8, data := [0x10, 0x02, 0x3E, 0x00, 1, 2, 3, 4] }
      < 8 - 2 ∧
    udsOf (isotpFrames
      [{ can_id := 0x7D0, can_dlc := 8, data := [0x10, 0x02, 0x3E, 0x00, 1, 2, 3, 4] },
       { can_id := 0x7D0, can_dlc := 8, data := [0x21, 1, 2, 3, 4, 5, 6, 7] },
       { can_id := 0x7D0, can_dlc := 3, data := [0x22, 8, 9, 0, 0, 0, 0, 0] }]
      State.init).2 = [] ∧
    (isotpFrames
      [{ can_id := 0x7D0, can_dlc := 8, data := [0x10, 0x02, 0x3E, 0x00, 1, 2, 3, 4] },
       { can_id := 0x7D0, can_dlc := 8, data := [0x21, 1, 2, 3, 4, 5, 6, 7] },
       { can_id := 0x7D0, can_dlc := 3, data := [0x22, 8, 9, 0, 0, 0, 0, 0] }]
      State.init).1.bufflen = 6 ∧
    (isotpFrames
      [{ can_id := 0x7D0, can_dlc := 8, data := [0x10, 0x02, 0x3E, 0x00, 1, 2, 3, 4] },
       { can_id := 0x7D0, can_dlc := 8, data := [0x21, 1, 2, 3, 4, 5, 6, 7] },
       { can_id := 0x7D0, can_dlc := 3, data := [0x22, 8, 9, 0, 0, 0, 0, 0] }]
      State.init).1.buffull = 2 :=
  ⟨by decide, by decide,
   (over_seeded_session_stuck State.init
      { can_id := 0x7D0, can_dlc := 8, data := [0x10, 0x02, 0x3E, 0x00, 1, 2, 3, 4] }
      (by decide) (by decide)).2.2.1
      [{ can_id := 0x7D0, can_dlc := 8, data := [0x21, 1, 2, 3, 4, 5, 6, 7] },
       { can_id := 0x7D0, can_dlc := 3, data := [0x22, 8, 9, 0, 0, 0, 0, 0] }]
      (by decide)⟩

/-! ## The VIN response as a segmented message -/

/-- The stores of a consecutive frame: min(DLC - 1, buffull - bufflen) of
them, at the fill count onwards. -/
theorem isotpFrame_consecutive_stores (id dlc : Nat) (data : List Nat) (s : State)
    (h : 0x20 ≤ rd data 0 ∧ rd data 0 < 0x30) :
    storeOf (isotpFrame id dlc data s).2
      = (List.range (min (dlc - 1) (s.buffull - s.bufflen))).map (fun j => s.bufflen + j) ∧
    sentOf (isotpFrame id dlc data s).2
      = (if s.bufflen + min (dlc - 1) (s.buffull - s.bufflen) = s.buffull then
          tableDispatch (bytesAt (isotpFrame id dlc data s).1.buffie s.buffull)
         else []) := by
  obtain ⟨c1, c2, _, _, _, _, c7⟩ := consecutiveCopy_spec data (dlc - 1) 1 s
  have hsto : storeOf (consecutiveCopy data (dlc - 1) 1 s).2
      = (List.range (min (dlc - 1) (s.buffull - s.bufflen))).map (fun j => s.bufflen + j) := by
    rw [c7, storeOf_stores]
  have hsent : sentOf (consecutiveCopy data (dlc - 1) 1 s).2 = [] := by
    rw [c7]
    exact (udsOf_stores _ _ (fun j => ⟨_, _, rfl⟩)).2.1
  rw [isotpFrame_consecutive id dlc data s h]
  by_cases hc : (consecutiveCopy data (dlc - 1) 1 s).1.bufflen
      = (consecutiveCopy data (dlc - 1) 1 s).1.buffull
  · have hdone : s.bufflen + min (dlc - 1) (s.buffull - s.bufflen) = s.buffull := by
      rw [← c1, ← c2]; exact hc
    rw [if_pos hc, if_pos hdone]
    refine ⟨?_, ?_⟩
    · show storeOf (_ ++ _) = _
      rw [storeOf_append, hsto, storeOf_udsFrame, List.append_nil]
    · show sentOf (_ ++ _) = _
      rw [sentOf_append, hsent, sentOf_udsFrame, c1, hdone]
      rfl
  · have hdone : ¬ s.bufflen + min (dlc - 1) (s.buffull - s.bufflen) = s.buffull := by
      rw [← c1, ← c2]; exact hc
    rw [if_neg hc, if_neg hdone]
    exact ⟨hsto, hsent⟩

/-- C22: the two-frame VIN response is a well-formed segmented message.  The
frames udsFrame writes for the request 09 02 are the first frame
10 0D 49 02 S y n o and the consecutive frame 21 p s y s S I G, both with
identifier 0x7E8 and DLC 8.  Fed in this order to isotpFrame from any state
with the 4096-byte buffer, they are stored at the indices 0..12 (6 bytes of
the first frame, all 7 of the consecutive frame), the fill count and the
target length end at 13, and udsFrame is entered exactly once, at the second
frame, with length 13 and the bytes 49 02 followed by SynopsysSIG; the only
frame written on the way is the flow-control frame. -/
theorem vin_response_round_trip (s : State) (id : Nat) (hs : s.wf) :
    sentOf (udsFrame id 2 [0x09, 0x02])
      = [{ can_id := 0x7E8, can_dlc := 8,
           data := [0x10, 0x0D, 0x49, 0x02, 0x53, 0x79, 0x6E, 0x6F] },
         { can_id := 0x7E8, can_dlc := 8,
           data := [0x21, 0x70, 0x73, 0x79, 0x73, 0x53, 0x49, 0x47] }] ∧
    udsOf (isotpFrames (sentOf (udsFrame id 2 [0x09, 0x02])) s).2
      = [(0x7E8, 13, [0x49, 0x02, 0x53, 0x79, 0x6E, 0x6F, 0x70, 0x73, 0x79, 0x73,
                      0x53, 0x49, 0x47])] ∧
    udsOf (isotpFrames (List.take 1 (sentOf (udsFrame id 2 [0x09, 0x02]))) s).2 = [] ∧
    storeOf (isotpFrames (sentOf (udsFrame id 2 [0x09, 0x02])) s).2 = List.range 13 ∧
    (isotpFrames (sentOf (udsFrame id 2 [0x09, 0x02])) s).1.bufflen = 13 ∧
    (isotpFrames (sentOf (udsFrame id 2 [0x09, 0x02])) s).1.buffull = 13 ∧
    sentOf (isotpFrames (sentOf (udsFrame id 2 [0x09, 0x02])) s).2
      = [{ can_id := 0x7D8, can_dlc := 8, data := [0x30, 0xFF, 0x01, 0, 0, 0, 0, 0] }] := by
  have hsent : sentOf (udsFrame id 2 [0x09, 0x02])
      = [{ can_id := 0x7E8, can_dlc := 8,
           data := [0x10, 0x0D, 0x49, 0x02, 0x53, 0x79, 0x6E, 0x6F] },
         { can_id := 0x7E8, can_dlc := 8,
           data := [0x21, 0x70, 0x73, 0x79, 0x73, 0x53, 0x49, 0x47] }] := by
    rw [sentOf_udsFrame]
    rfl
  have hlen : s.buffie.length = 4096 := hs
  -- the first frame
  obtain ⟨a1, a2, _, a4, a5, a6⟩ := isotpFrame_first 0x7E8 8
    [0x10, 0x0D, 0x49, 0x02, 0x53, 0x79, 0x6E, 0x6F] s (by decide)
  have a5 := a5 (by rw [hlen]; decide)
  have a1 : (isotpFrame 0x7E8 8 [0x10, 0x0D, 0x49, 0x02, 0x53, 0x79, 0x6E, 0x6F] s).1.bufflen
      = 6 := a1
  have a2 : (isotpFrame 0x7E8 8 [0x10, 0x0D, 0x49, 0x02, 0x53, 0x79, 0x6E, 0x6F] s).1.buffull
      = 13 := a2
  have a5 : bytesAt (isotpFrame 0x7E8 8 [0x10, 0x0D, 0x49, 0x02, 0x53, 0x79, 0x6E, 0x6F]
      s).1.buffie 6 = [0x49, 0x02, 0x53, 0x79, 0x6E, 0x6F] := a5
  have a7 : udsOf (isotpFrame 0x7E8 8 [0x10, 0x0D, 0x49, 0x02, 0x53, 0x79, 0x6E, 0x6F] s).2
      = [] := by
    rw [a6, udsOf_append, (udsOf_stores _ _ (fun j => ⟨_, _, rfl⟩)).1]
    rfl
  have a8 : storeOf (isotpFrame 0x7E8 8 [0x10, 0x0D, 0x49, 0x02, 0x53, 0x79, 0x6E, 0x6F] s).2
      = List.range 6 := by
    rw [a6, storeOf_append, storeOf_stores]
    rfl
  have a9 : sentOf (isotpFrame 0x7E8 8 [0x10, 0x0D, 0x49, 0x02, 0x53, 0x79, 0x6E, 0x6F] s).2
      = [{ can_id := 0x7D8, can_dlc := 8, data := [0x30, 0xFF, 0x01, 0, 0, 0, 0, 0] }] := by
    rw [a6, sentOf_append, (udsOf_stores _ _ (fun j => ⟨_, _, rfl⟩)).2.1]
    rfl
  -- the consecutive frame
  obtain ⟨c1, c2, _, c4, c5⟩ := isotpFrame_consecutive_fits
    { can_id := 0x7E8, can_dlc := 8, data := [0x21, 0x70, 0x73, 0x79, 0x73, 0x53, 0x49, 0x47] }
    (isotpFrame 0x7E8 8 [0x10, 0x0D, 0x49, 0x02, 0x53, 0x79, 0x6E, 0x6F] s).1
    (by decide) (by decide) (by rw [a1, a2]; decide) (by rw [a2, a4, hlen]; decide)
  obtain ⟨d1, d2⟩ := isotpFrame_consecutive_stores 0x7E8 8
    [0x21, 0x70, 0x73, 0x79, 0x73, 0x53, 0x49, 0x47]
    (isotpFrame 0x7E8 8 [0x10, 0x0D, 0x49, 0x02, 0x53, 0x79, 0x6E, 0x6F] s).1 (by decide)
  simp only [a1, a2] at c1 c2 c4 c5 d1 d2
  rw [a5] at c4
  have c4 : bytesAt (isotpFrame 0x7E8 8 [0x21, 0x70, 0x73, 0x79, 0x73, 0x53, 0x49, 0x47]
      (isotpFrame 0x7E8 8 [0x10, 0x0D, 0x49, 0x02, 0x53, 0x79, 0x6E, 0x6F] s).1).1.buffie 13
      = [0x49, 0x02, 0x53, 0x79, 0x6E, 0x6F, 0x70, 0x73, 0x79, 0x73, 0x53, 0x49, 0x47] := c4
  rw [if_pos (by decide), c4] at c5
  have d1 : storeOf (isotpFrame 0x7E8 8 [0x21, 0x70, 0x73, 0x79, 0x73, 0x53, 0x49, 0x47]
      (isotpFrame 0x7E8 8 [0x10, 0x0D, 0x49, 0x02, 0x53, 0x79, 0x6E, 0x6F] s).1).2
      = [6, 7, 8, 9, 10, 11, 12] := d1
  rw [if_pos (by decide), c4] at d2
  have d2 : sentOf (isotpFrame 0x7E8 8 [0x21, 0x70, 0x73, 0x79, 0x73, 0x53, 0x49, 0x47]
      (isotpFrame 0x7E8 8 [0x10, 0x0D, 0x49, 0x02, 0x53, 0x79, 0x6E, 0x6F] s).1).2 = [] := by
    rw [d2]; decide
  have r2 : (isotpFrames
      [{ can_id := 0x7E8, can_dlc := 8,
         data := [0x10, 0x0D, 0x49, 0x02, 0x53, 0x79, 0x6E, 0x6F] },
       { can_id := 0x7E8, can_dlc := 8,
         data := [0x21, 0x70, 0x73, 0x79, 0x73, 0x53, 0x49, 0x47] }] s).2
      = (isotpFrame 0x7E8 8 [0x10, 0x0D, 0x49, 0x02, 0x53, 0x79, 0x6E, 0x6F] s).2 ++
        ((isotpFrame 0x7E8 8 [0x21, 0x70, 0x73, 0x79, 0x73, 0x53, 0x49, 0x47]
          (isotpFrame 0x7E8 8 [0x10, 0x0D, 0x49, 0x02, 0x53, 0x79, 0x6E, 0x6F] s).1).2
          ++ []) := rfl
  have r1 : (isotpFrames
      [{ can_id := 0x7E8, can_dlc := 8,
         data := [0x10, 0x0D, 0x49, 0x02, 0x53, 0x79, 0x6E, 0x6F] },
       { can_id := 0x7E8, can_dlc := 8,
         data := [0x21, 0x70, 0x73, 0x79, 0x73, 0x53, 0x49, 0x47] }] s).1
      = (isotpFrame 0x7E8 8 [0x21, 0x70, 0x73, 0x79, 0x73, 0x53, 0x49, 0x47]
          (isotpFrame 0x7E8 8 [0x10, 0x0D, 0x49, 0x02, 0x53, 0x79, 0x6E, 0x6F] s).1).1 := rfl
  have r0 : (isotpFrames (List.take 1
      [{ can_id := 0x7E8, can_dlc := 8,
         data := [0x10, 0x0D, 0x49, 0x02, 0x53, 0x79, 0x6E, 0x6F] },
       ({ can_id := 0x7E8, can_dlc := 8,
          data := [0x21, 0x70, 0x73, 0x79, 0x73, 0x53, 0x49, 0x47] } : can_frame)]) s).2
      = (isotpFrame 0x7E8 8 [0x10, 0x0D, 0x49, 0x02, 0x53, 0x79, 0x6E, 0x6F] s).2 ++ [] := rfl
  rw [hsent, r2, r1, r0]
  refine ⟨rfl, ?_, ?_, ?_, c1, c2, ?_⟩
  · rw [udsOf_append, udsOf_append, a7, c5]; rfl
  · rw [udsOf_append, a7]; rfl
  · rw [storeOf_append, storeOf_append, a8, d1]; rfl
  · rw [sentOf_append, sentOf_append, a9, d2]; rfl

theorem vin_response_round_trip_witness :
    State.init.wf ∧
    udsOf (isotpFrames (sentOf (udsFrame 0x7D0 2 [0x09, 0x02])) State.init).2
      = [(0x7E8, 13, [0x49, 0x02, 0x53, 0x79, 0x6E, 0x6F, 0x70, 0x73, 0x79, 0x73,
                      0x53, 0x49, 0x47])] :=
  ⟨init_wf, (vin_response_round_trip State.init 0x7D0 init_wf).2.1⟩

end Uncanny
